import Mathlib

/-!
Verification development for the tagged-PDF-to-HTML derivation engine.

The definitions below are a shallow embedding of the TypeScript sources
(`structure_traversal.ts`, `attribute_mapper.ts`, `content_extractor.ts`,
`converter.ts`) over an idealized PDF object model:

* PDF dictionaries reachable through the structure tree are modelled after
  reference resolution, so a structure tree is a finite inductive tree
  (the WeakSet cycle guards of the source are vacuous on trees);
* `stringToPDFString` (pdf.js UTF-16/ byte-string decoding) is modelled as the
  identity on already-decoded strings;
* genuinely external collaborators (canvas-based raster image conversion,
  the SVG path emitter, annotation objects behind OBJR leaves, associated
  files) are modelled as parameters of the document environment or as absent,
  exactly where the source calls out of the core;
* JavaScript numbers appearing in attribute values are modelled as integers
  (none of the verified properties involves non-integral arithmetic);
* array-valued `K` slots are modelled by lists of children.

Every definition keeps the control flow, branch order and string assembly of
the corresponding source function.
-/

namespace TaggedPdf

/-! ## Small JavaScript-flavoured helpers -/

/-- The double-quote character (used in assembled markup). -/
def quotC : Char := Char.ofNat 34

/-- The apostrophe character. -/
def aposC : Char := Char.ofNat 39

/-- The backslash character. -/
def bslashC : Char := Char.ofNat 92

/-- JavaScript truthiness of an optional string (`undefined` and `""` are falsy). -/
def jsTruthyStr (o : Option String) : Bool :=
  match o with
  | none => false
  | some s => s ≠ ""

/-- JavaScript `x || d` for an optional integer (`undefined` and `0` are falsy). -/
def jsOrI (o : Option Int) (d : Int) : Int :=
  match o with
  | none => d
  | some n => if n = 0 then d else n

/-- `list.startsWith` on character lists. -/
def listStarts : List Char → List Char → Bool
  | _, [] => true
  | [], _ :: _ => false
  | a :: as, b :: bs => a = b && listStarts as bs

/-- Number of (possibly overlapping) occurrences of a nonempty pattern in a list. -/
def countOccList (pat : List Char) : List Char → Nat
  | [] => 0
  | c :: rest => (if listStarts (c :: rest) pat then 1 else 0) + countOccList pat rest

/-- Number of occurrences of a nonempty pattern string in a string. -/
def countOcc (pat s : String) : Nat := countOccList pat.data s.data

/-- ASCII lower-casing of a string (JS `toLowerCase` on the names that occur here). -/
def lowerStr (s : String) : String := String.mk (s.data.map Char.toLower)

/-- ASCII upper-casing of a string (JS `toUpperCase`). -/
def upperStr (s : String) : String := String.mk (s.data.map Char.toUpper)

/-- JS `\s` test, restricted to the whitespace that occurs in extracted text. -/
def isWs (c : Char) : Bool := c.isWhitespace

/-- JS `\d` test. -/
def isDigitC (c : Char) : Bool := c.isDigit

/-- `isWordChar` of `structure_traversal.ts`: `/[A-Za-z0-9]/`. -/
def isWordChar (c : Char) : Bool := c.isAlpha || c.isDigit

/-- JS `parseInt(s, 10)`: optional sign followed by leading digits, `NaN` is `none`.
    (Leading whitespace never occurs at the call sites embedded here.) -/
def parseIntJs (s : String) : Option Int :=
  match s.data with
  | '-' :: rest =>
      let ds := rest.takeWhile isDigitC
      if ds = [] then none else some (-(String.mk ds).toNat!)
  | '+' :: rest =>
      let ds := rest.takeWhile isDigitC
      if ds = [] then none else some ((String.mk ds).toNat! : Int)
  | _ =>
      let ds := s.data.takeWhile isDigitC
      if ds = [] then none else some ((String.mk ds).toNat! : Int)

/-! ## `escapeHtml` (structure_traversal.ts lines 92-100)

The source applies five sequential global replacements (`&`, `<`, `>`, `"`,
apostrophe).  Since none of the later replacement targets occurs in an earlier
replacement string, the sequential replacement equals the per-character map
embedded here. -/

/-- Replacement of one character under `escapeHtml`. -/
def escChar (c : Char) : List Char :=
  if c = '&' then "&amp;".data
  else if c = '<' then "&lt;".data
  else if c = '>' then "&gt;".data
  else if c = quotC then "&quot;".data
  else if c = aposC then "&#039;".data
  else [c]

/-- `escapeHtml` of `structure_traversal.ts` (on strings; the non-string input
    branch returns `""` and never fires in the embedded call sites). -/
def escapeHtml (s : String) : String := String.mk (s.data.flatMap escChar)

/-! ## Role resolution (structure_traversal.ts lines 2090-2161) -/

/-- `isPdfStandardNamespace` (lines 2091-2101). -/
def isPdfStandardNamespace (namespaceURI : Option String) : Bool :=
  match namespaceURI with
  | none => true
  | some ns =>
    let normalized := lowerStr ns.trim
    if normalized = "" then true
    else if normalized = "http://iso.org/pdf2/ssn" then true
    else if normalized = "http://iso.org/pdf2/ssn#" then true
    else if normalized = "http://iso.org/pdf2/ssn/1.0" then true
    else if normalized = "http://iso.org/pdf/ssn" then true
    else if normalized = "http://iso.org/pdf/ssn/1.0" then true
    else false

/-- The explicit set literal inside `isStandardType` (lines 2133-2158). -/
def standardTypesList : List String :=
  [ "Document", "Part", "Sect", "Div", "Art", "BlockQuote", "Caption",
    "TOC", "TOCI", "Index", "NonStruct", "Private", "Aside",
    "Title", "FENote", "DocumentFragment",
    "P", "H", "H1", "H2", "H3", "H4", "H5", "H6",
    "L", "LI", "Lbl", "LBody",
    "Table", "TR", "TH", "TD", "THead", "TBody", "TFoot",
    "Span", "Quote", "Note", "Reference", "BibEntry", "Code", "Link",
    "Annot", "Ruby", "RB", "RT", "RP", "Warichu", "WT", "WP",
    "Em", "Strong", "Sub", "Sup",
    "Figure", "Formula", "Form",
    "Artifact" ]

/-- The regular expression literal `/^H\\d+$/` that appears at
    `structure_traversal.ts` lines 599, 1101 and 2132.  Inside a JavaScript
    regex literal `\\` matches one literal backslash and `d+` matches one or
    more letters `d`, so the pattern accepts exactly the strings
    `H` `\` `d…d` — and in particular rejects `H1`, `H7`, `H9`. -/
def matchesHBackslashD (s : String) : Bool :=
  match s.data with
  | 'H' :: c :: rest => c = bslashC && rest ≠ [] && rest.all (· = 'd')
  | _ => false

/-- `isStandardType` (lines 2130-2161), including the `/^H\\d+$/` literal. -/
def isStandardType (role : String) : Bool :=
  if role = "Hn" then true
  else if matchesHBackslashD role then true
  else standardTypesList.contains role

/-- A role-map graph: ordered key/value pairs with unique keys
    (the source stores it as a JS `Map<string, string>`). -/
abbrev RoleMap := List (String × String)

/-- `roleMap.get` / `roleMap.has`. -/
def rmLookup (rm : RoleMap) (k : String) : Option String :=
  (List.find? (fun p => p.1 = k) rm).map (fun p => p.2)

/-- Keys of a role map. -/
def rmKeys (rm : RoleMap) : List String := rm.map (fun p => p.1)

theorem filter_imp_length_le {α : Type} (p q : α → Bool)
    (h : ∀ x, p x = true → q x = true) (l : List α) :
    (l.filter p).length ≤ (l.filter q).length := by
  induction l with
  | nil => simp
  | cons x xs ih =>
    by_cases hp : p x = true
    · have hq := h x hp
      simp only [List.filter_cons, hp, hq, if_true, List.length_cons]
      omega
    · have hp' : p x = false := by simpa using hp
      simp only [List.filter_cons, hp', if_false, Bool.false_eq_true]
      by_cases hq : q x = true
      · simp only [hq, if_true, List.length_cons]
        omega
      · have hq' : q x = false := by simpa using hq
        simp only [hq', if_false, Bool.false_eq_true]
        exact ih

theorem filter_notmem_lt (l : List String) (a : String) (seen : List String)
    (hal : a ∈ l) (has : a ∉ seen) :
    (l.filter (fun k => decide (k ∉ a :: seen))).length <
      (l.filter (fun k => decide (k ∉ seen))).length := by
  induction l with
  | nil => cases hal
  | cons x xs ih =>
    by_cases hx : x = a
    · subst hx
      have h1 : (fun k => decide (k ∉ x :: seen)) x = false := by simp
      have h2 : (fun k => decide (k ∉ seen)) x = true := by simpa using has
      simp only [List.filter_cons, h1, h2, if_true, if_false, Bool.false_eq_true,
        List.length_cons]
      have hle := filter_imp_length_le (fun k => decide (k ∉ x :: seen))
        (fun k => decide (k ∉ seen)) (by intro y hy; simp at hy ⊢; exact hy.2) xs
      omega
    · have hal' : a ∈ xs := by
        cases hal with
        | head => exact absurd rfl hx
        | tail _ h => exact h
      by_cases hxs : x ∈ seen
      · have h1 : (fun k => decide (k ∉ a :: seen)) x = false := by simp [hxs]
        have h2 : (fun k => decide (k ∉ seen)) x = false := by simp [hxs]
        simp only [List.filter_cons, h1, h2, if_false, Bool.false_eq_true]
        exact ih hal'
      · have h1 : (fun k => decide (k ∉ a :: seen)) x = true := by
          simp [hxs, hx]
        have h2 : (fun k => decide (k ∉ seen)) x = true := by simp [hxs]
        simp only [List.filter_cons, h1, h2, if_true, List.length_cons]
        exact Nat.succ_lt_succ (ih hal')

theorem rmLookup_mem {rm : RoleMap} {k v : String}
    (h : rmLookup rm k = some v) : k ∈ rmKeys rm := by
  unfold rmLookup at h
  cases hf : List.find? (fun p => p.1 = k) rm with
  | none => rw [hf] at h; cases h
  | some p =>
    have hp : p.1 = k := by simpa using List.find?_some hf
    have hmem := List.mem_of_find?_eq_some hf
    exact hp ▸ List.mem_map.mpr ⟨p, hmem, rfl⟩

/-- The `while` loop of `resolveRole` (lines 2110-2124), with `seen` the visited
    set, together with the number of replacement steps (`current = next`)
    performed.  The loop's four exits are mirrored: missing mapping, revisited
    value, falsy mapped value, standard type reached. -/
def resolveWalk (rm : RoleMap) (current : String) (seen : List String) :
    String × Nat :=
  if h : ((rmLookup rm current).isSome && !(seen.contains current)) = true then
    let next := (rmLookup rm current).getD ""
    if next = "" then (current, 0)
    else if isStandardType next then (next, 1)
    else ((resolveWalk rm next (current :: seen)).1,
          (resolveWalk rm next (current :: seen)).2 + 1)
  else (current, 0)
  termination_by ((rmKeys rm).filter (fun k => decide (k ∉ seen))).length
  decreasing_by
    have h' := h
    simp only [Bool.and_eq_true, Bool.not_eq_true', Option.isSome_iff_exists] at h'
    obtain ⟨⟨v, hv⟩, h2⟩ := h'
    have h2' : current ∉ seen := by
      intro hmem
      have := List.elem_eq_true_of_mem hmem
      rw [List.contains, this] at h2
      cases h2
    exact filter_notmem_lt (rmKeys rm) current seen (rmLookup_mem hv) h2'

/-- `resolveRole` (lines 2103-2127): identity for standard types under a
    default standard namespace, otherwise the transitive role-map walk. -/
def resolveRole (role : String) (rm : RoleMap) (namespaceURI : Option String) :
    String :=
  if role = "" then role
  else if isPdfStandardNamespace namespaceURI && isStandardType role then role
  else (resolveWalk rm role []).1

/-- The number of replacement steps performed by `resolveRole`. -/
def resolveRoleSteps (role : String) (rm : RoleMap)
    (namespaceURI : Option String) : Nat :=
  if role = "" then 0
  else if isPdfStandardNamespace namespaceURI && isStandardType role then 0
  else (resolveWalk rm role []).2

theorem resolveWalk_steps_le (rm : RoleMap) (current : String)
    (seen : List String) :
    (resolveWalk rm current seen).2 ≤
      ((rmKeys rm).filter (fun k => decide (k ∉ seen))).length := by
  induction current, seen using resolveWalk.induct rm with
  | case1 current seen h nx hnx =>
    rw [resolveWalk.eq_def, dif_pos h]
    rw [if_pos (by exact hnx)]
    exact Nat.zero_le _
  | case2 current seen h nx hnx hstd =>
    rw [resolveWalk.eq_def, dif_pos h]
    rw [if_neg (by exact hnx), if_pos (by exact hstd)]
    have h2' : current ∉ seen := by
      intro hmem
      have h2 := (Bool.and_eq_true_iff.mp h).2
      rw [Bool.not_eq_true', List.contains, List.elem_eq_true_of_mem hmem] at h2
      cases h2
    obtain ⟨v, hv⟩ := Option.isSome_iff_exists.mp (Bool.and_eq_true_iff.mp h).1
    have hlt := filter_notmem_lt (rmKeys rm) current seen (rmLookup_mem hv) h2'
    omega
  | case3 current seen h nx hnx hstd ih =>
    rw [resolveWalk.eq_def, dif_pos h]
    rw [if_neg (by exact hnx), if_neg (by exact hstd)]
    have h2' : current ∉ seen := by
      intro hmem
      have h2 := (Bool.and_eq_true_iff.mp h).2
      rw [Bool.not_eq_true', List.contains, List.elem_eq_true_of_mem hmem] at h2
      cases h2
    obtain ⟨v, hv⟩ := Option.isSome_iff_exists.mp (Bool.and_eq_true_iff.mp h).1
    have hlt := filter_notmem_lt (rmKeys rm) current seen (rmLookup_mem hv) h2'
    have ih2 : (resolveWalk rm ((rmLookup rm current).getD "") (current :: seen)).2 ≤
        ((rmKeys rm).filter (fun k => decide (k ∉ current :: seen))).length := ih
    omega
  | case4 current seen h =>
    rw [resolveWalk.eq_def, dif_neg h]
    exact Nat.zero_le _

theorem resolveWalk_steps_le_length (rm : RoleMap) (role : String) :
    (resolveWalk rm role []).2 ≤ rm.length := by
  have h := resolveWalk_steps_le rm role []
  have heq : ((rmKeys rm).filter (fun k => decide (k ∉ ([] : List String)))).length
      = rm.length := by
    simp [rmKeys]
  omega

/-! ## Attribute values and dictionaries

A PDF attribute dictionary is modelled as its owner entry (`O`) plus the
remaining key/value entries in declaration order (keys unique).  Values carry
the runtime shapes the mapper distinguishes: name objects, strings, numbers
(integral, see the header note), number arrays and string arrays. -/

/-- A PDF attribute value as seen by the attribute mapper. -/
inductive AttrVal where
  | name (s : String)
  | str (s : String)
  | num (n : Int)
  | nums (l : List Int)
  | strs (l : List String)
deriving DecidableEq, Repr

/-- One attribute dictionary: owner (`O`, a name) and the other entries. -/
structure AttrDict where
  owner : Option String
  entries : List (String × AttrVal)
deriving DecidableEq, Repr

/-- `dict.get(key)` for the non-`O` entries. -/
def getAttrVal (d : AttrDict) (k : String) : Option AttrVal :=
  (List.find? (fun p => p.1 = k) d.entries).map (fun p => p.2)

/-- JavaScript truthiness of an attribute value (objects and arrays are always
    truthy, `""` and `0` are falsy). -/
def jsTruthyVal : AttrVal → Bool
  | .name _ => true
  | .str s => s ≠ ""
  | .num n => n ≠ 0
  | .nums _ => true
  | .strs _ => true

/-- Truthiness of a possibly absent value. -/
def jsTruthyValOpt (o : Option AttrVal) : Bool :=
  match o with
  | none => false
  | some v => jsTruthyVal v

/-- JavaScript `x || y` on attribute lookups. -/
def jsOrV (a b : Option AttrVal) : Option AttrVal :=
  if jsTruthyValOpt a then a else b

/-- JavaScript `String(v)` on the modelled values (a pdf.js `Name` instance has
    no custom `toString`, arrays stringify comma-separated). -/
def jsStringOfVal : AttrVal → String
  | .name _ => "[object Object]"
  | .str s => s
  | .num n => toString n
  | .nums l => String.intercalate "," (l.map toString)
  | .strs l => String.intercalate "," l

/-- `(value as Name | undefined)?.name`. -/
def asNameVal : Option AttrVal → Option String
  | some (.name s) => some s
  | _ => none

/-- `startsWith` on strings. -/
def strStarts (s p : String) : Bool := listStarts s.data p.data

/-- JS `Map` key/value store with insertion-order semantics. -/
abbrev JsMap := List (String × String)

/-- `map.set(k, v)`: replaces in place on key collision, appends otherwise. -/
def mapSet (m : JsMap) (k v : String) : JsMap :=
  match m with
  | [] => [(k, v)]
  | (k', v') :: rest => if k' = k then (k, v) :: rest else (k', v') :: mapSet rest k v

/-- `map.get(k)`. -/
def mapGet (m : JsMap) (k : String) : Option String :=
  (List.find? (fun p => p.1 = k) m).map (fun p => p.2)

/-! ## Attribute cascade (attribute_mapper.ts) -/

/-- `processListAttributes` (lines 53-61). -/
def processListAttributes (attrList : List AttrDict) (m : JsMap) : JsMap :=
  attrList.foldl (fun m d =>
    match asNameVal (getAttrVal d "ListNumbering") with
    | some ln => if ln ≠ "" then mapSet m "data-list-numbering" (lowerStr ln) else m
    | none => m) m

/-- `processTableAttributes` (lines 63-86). -/
def processTableAttributes (attrList : List AttrDict) (m : JsMap) : JsMap :=
  attrList.foldl (fun m d =>
    let m := match getAttrVal d "ColSpan" with
      | some v => if jsTruthyVal v then mapSet m "colspan" (jsStringOfVal v) else m
      | none => m
    let m := match getAttrVal d "RowSpan" with
      | some v => if jsTruthyVal v then mapSet m "rowspan" (jsStringOfVal v) else m
      | none => m
    let m := match getAttrVal d "Headers" with
      | some v =>
        if jsTruthyVal v then
          mapSet m "headers"
            (match v with
             | .strs l => String.intercalate " " l
             | w => jsStringOfVal w)
        else m
      | none => m
    let m := match asNameVal (getAttrVal d "Scope") with
      | some sc => if sc ≠ "" then mapSet m "scope" (lowerStr sc) else m
      | none => m
    let m := match getAttrVal d "Short" with
      | some v => if jsTruthyVal v then mapSet m "abbr" (jsStringOfVal v) else m
      | none => m
    let m := match getAttrVal d "Summary" with
      | some v => if jsTruthyVal v then mapSet m "abbr" (jsStringOfVal v) else m
      | none => m
    m) m

/-- `processLayoutAttributesForHTML` (lines 88-98). -/
def processLayoutAttributesForHTML (attrList : List AttrDict) (m : JsMap) : JsMap :=
  attrList.foldl (fun m d =>
    match asNameVal (getAttrVal d "Placement") with
    | some p => if p ≠ "" then mapSet m "data-placement" (lowerStr p) else m
    | none => m) m

/-- `processHTMLAttributes` (lines 100-115): every non-`O` key passes through
    as a `data-html-` attribute. -/
def processHTMLAttributes (attrList : List AttrDict) (m : JsMap) : JsMap :=
  attrList.foldl (fun m d =>
    d.entries.foldl (fun m p =>
      mapSet m ("data-html-" ++ lowerStr p.1) (jsStringOfVal p.2)) m) m

/-- `processARIAAttributes` (lines 126-140). -/
def processARIAAttributes (attrList : List AttrDict) (m : JsMap) : JsMap :=
  attrList.foldl (fun m d =>
    d.entries.foldl (fun m p =>
      let ariaKey := if strStarts p.1 "aria-" then p.1 else "aria-" ++ lowerStr p.1
      mapSet m ariaKey (jsStringOfVal p.2)) m) m

/-- `processCSSAttributesForHTML` (lines 117-124): CSS-owner attributes add no
    HTML attributes. -/
def processCSSAttributesForHTML (_attrList : List AttrDict) (m : JsMap) : JsMap := m

/-- Owner partition used by `getHTMLAttributes` (lines 21-32). -/
def ownerIsHTML (o : Option String) : Bool :=
  match o with
  | some s => strStarts s "HTML"
  | none => false

/-- Owner test `owner?.startsWith("CSS")`. -/
def ownerIsCSS (o : Option String) : Bool :=
  match o with
  | some s => strStarts s "CSS"
  | none => false

/-- Owner test for the ARIA category. -/
def ownerIsARIA (o : Option String) : Bool :=
  match o with
  | some s => s = "ARIA" || strStarts s "ARIA"
  | none => false

/-- The attribute map assembled by `getHTMLAttributes` (lines 6-44), before
    serialization.  Categories are processed in the priority order
    List → Table (with unknown owners) → Layout → HTML → CSS → ARIA. -/
def getHTMLAttributesMap (attributes : List AttrDict) : JsMap :=
  let listAttrs := attributes.filter (fun d => d.owner = some "List")
  let tableAttrs := attributes.filter (fun d => d.owner = some "Table")
  let layoutAttrs := attributes.filter (fun d => d.owner = some "Layout")
  let htmlAttrs := attributes.filter (fun d =>
    d.owner ≠ some "List" && d.owner ≠ some "Table" && d.owner ≠ some "Layout" &&
    ownerIsHTML d.owner)
  let cssAttrs := attributes.filter (fun d =>
    d.owner ≠ some "List" && d.owner ≠ some "Table" && d.owner ≠ some "Layout" &&
    !ownerIsHTML d.owner && ownerIsCSS d.owner)
  let ariaAttrs := attributes.filter (fun d =>
    d.owner ≠ some "List" && d.owner ≠ some "Table" && d.owner ≠ some "Layout" &&
    !ownerIsHTML d.owner && !ownerIsCSS d.owner && ownerIsARIA d.owner)
  let unknownAttrs := attributes.filter (fun d =>
    d.owner ≠ some "List" && d.owner ≠ some "Table" && d.owner ≠ some "Layout" &&
    !ownerIsHTML d.owner && !ownerIsCSS d.owner && !ownerIsARIA d.owner)
  let m : JsMap := []
  let m := processListAttributes listAttrs m
  let m := processTableAttributes (tableAttrs ++ unknownAttrs) m
  let m := processLayoutAttributesForHTML layoutAttrs m
  let m := processHTMLAttributes htmlAttrs m
  let m := processCSSAttributesForHTML cssAttrs m
  let m := processARIAAttributes ariaAttrs m
  m

/-- `getHTMLAttributes` (lines 6-51): the serialized attribute string
    ` key="value"` per entry, with NO escaping of the values. -/
def getHTMLAttributes (attributes : List AttrDict) : String :=
  (getHTMLAttributesMap attributes).foldl
    (fun acc p => acc ++ " " ++ p.1 ++ "=" ++ String.singleton quotC ++ p.2 ++
      String.singleton quotC) ""

/-- `getBBox` (lines 142-153). -/
def getBBox (attributes : List AttrDict) : Option (List Int) :=
  attributes.findSome? (fun d =>
    match getAttrVal d "BBox" with
    | some (.nums l) => if l.length = 4 then some l else none
    | _ => none)

/-- `parseColor` (lines 406-433), on integral components. -/
def parseColor : AttrVal → String
  | .nums [g] =>
      let gv := g * 255
      "rgb(" ++ toString gv ++ ", " ++ toString gv ++ ", " ++ toString gv ++ ")"
  | .nums [r, g, b] =>
      "rgb(" ++ toString (r * 255) ++ ", " ++ toString (g * 255) ++ ", " ++
        toString (b * 255) ++ ")"
  | .nums [c, m, y, k] =>
      let rv := 255 * (1 - c) * (1 - k)
      let gv := 255 * (1 - m) * (1 - k)
      let bv := 255 * (1 - y) * (1 - k)
      "rgb(" ++ toString rv ++ ", " ++ toString gv ++ ", " ++ toString bv ++ ")"
  | .nums _ => "inherit"
  | _ => "inherit"

/-! `processLayoutCSSProperties` (lines 248-404) is split below into one small
definition per attribute key, chained in the source's order. -/

/-- A color-valued key: truthy value sets `prop: parseColor(v)`. -/
def cssColorKey (d : AttrDict) (k prop : String) (m : JsMap) : JsMap :=
  match getAttrVal d k with
  | some v => if jsTruthyVal v then mapSet m prop (parseColor v) else m
  | none => m

/-- A pixel-valued key guarded by `!== undefined`: presence sets `prop: {v}px`. -/
def cssPxKey (d : AttrDict) (k prop : String) (m : JsMap) : JsMap :=
  match getAttrVal d k with
  | some v => mapSet m prop (jsStringOfVal v ++ "px")
  | none => m

/-- A margin-implying key (`SpaceBefore/After`, `Start/EndIndent`): presence sets
    `display: block` and the margin side. -/
def cssBlockMarginKey (d : AttrDict) (k marginProp : String) (m : JsMap) : JsMap :=
  match getAttrVal d k with
  | some v => mapSet (mapSet m "display" "block") marginProp (jsStringOfVal v ++ "px")
  | none => m

/-- `BorderStyle || TBorderStyle` (lines 260-264). -/
def cssBorderStyle (d : AttrDict) (m : JsMap) : JsMap :=
  match jsOrV (getAttrVal d "BorderStyle") (getAttrVal d "TBorderStyle") with
  | some v =>
    if jsTruthyVal v then
      let sty := match v with
        | .name n => n
        | w => jsStringOfVal w
      mapSet m "border-style" (lowerStr sty)
    else m
  | none => m

/-- `Padding || TPadding` (lines 274-276). -/
def cssPadding (d : AttrDict) (m : JsMap) : JsMap :=
  match jsOrV (getAttrVal d "Padding") (getAttrVal d "TPadding") with
  | some v => mapSet m "padding" (jsStringOfVal v ++ "px")
  | none => m

/-- `TextAlign` (lines 278-280). -/
def cssTextAlign (d : AttrDict) (m : JsMap) : JsMap :=
  match asNameVal (getAttrVal d "TextAlign") with
  | some ta => if ta ≠ "" then mapSet m "text-align" (lowerStr ta) else m
  | none => m

/-- `LineHeight` (lines 286-292). -/
def cssLineHeight (d : AttrDict) (m : JsMap) : JsMap :=
  match getAttrVal d "LineHeight" with
  | some v =>
    if jsTruthyVal v then
      mapSet m "line-height"
        (match v with
         | .name n => n
         | .num n => toString n ++ "pt"
         | w => jsStringOfVal w)
    else m
  | none => m

/-- `BBox` → `width`/`height` (lines 322-329); no absolute value is taken. -/
def cssBBoxWH (d : AttrDict) (m : JsMap) : JsMap :=
  match getAttrVal d "BBox" with
  | some (.nums [x1, y1, x2, y2]) =>
      mapSet (mapSet m "width" (toString (x2 - x1) ++ "px"))
        "height" (toString (y2 - y1) ++ "px")
  | _ => m

/-- `Placement` (lines 337-352). -/
def cssPlacement (d : AttrDict) (m : JsMap) : JsMap :=
  match asNameVal (getAttrVal d "Placement") with
  | some p =>
    if p ≠ "" then
      if p = "Block" then mapSet m "display" "block"
      else if p = "Inline" then mapSet m "display" "inline"
      else if p = "Before" then mapSet (mapSet m "float" "left") "clear" "both"
      else if p = "Start" then mapSet m "float" "left"
      else if p = "End" then mapSet m "float" "right"
      else m
    else m
  | none => m

/-- `WritingMode` (lines 354-359). -/
def cssWritingMode (d : AttrDict) (m : JsMap) : JsMap :=
  match asNameVal (getAttrVal d "WritingMode") with
  | some w =>
    if w ≠ "" then
      if w = "TbRl" then mapSet m "writing-mode" "vertical-rl"
      else if w = "LrTb" || w = "RlTb" then mapSet m "writing-mode" "horizontal-tb"
      else m
    else m
  | none => m

/-- `TextDecorationType` (lines 367-374). -/
def cssTextDeco (d : AttrDict) (m : JsMap) : JsMap :=
  match asNameVal (getAttrVal d "TextDecorationType") with
  | some t =>
    if t ≠ "" then
      if t = "Underline" then mapSet m "text-decoration" "underline"
      else if t = "LineThrough" then mapSet m "text-decoration" "line-through"
      else if t = "Overline" then mapSet m "text-decoration" "overline"
      else if t = "None" then mapSet m "text-decoration" "none"
      else m
    else m
  | none => m

/-- `RubyAlign` (lines 382-393). -/
def cssRubyAlign (d : AttrDict) (m : JsMap) : JsMap :=
  match asNameVal (getAttrVal d "RubyAlign") with
  | some r =>
    if r ≠ "" then
      let val := if r = "Start" then "start"
        else if r = "Center" then "center"
        else if r = "End" then "end"
        else if r = "Justify" then "space-between"
        else if r = "Distribute" then "space-around"
        else "auto"
      mapSet m "ruby-align" val
    else m
  | none => m

/-- `RubyPosition` (lines 395-403). -/
def cssRubyPos (d : AttrDict) (m : JsMap) : JsMap :=
  match asNameVal (getAttrVal d "RubyPosition") with
  | some r =>
    if r ≠ "" then
      let val := if r = "Before" then "over" else if r = "After" then "under" else ""
      if val ≠ "" then mapSet m "ruby-position" val else m
    else m
  | none => m

/-- `processLayoutCSSProperties` (lines 248-404): the keys of one dictionary,
    written in source order. -/
def processLayoutCSSProperties (d : AttrDict) (m0 : JsMap) : JsMap :=
  let m := cssColorKey d "BackgroundColor" "background-color" m0
  let m := cssColorKey d "BorderColor" "border-color" m
  let m := cssBorderStyle d m
  let m := cssPxKey d "BorderThickness" "border-width" m
  let m := cssColorKey d "Color" "color" m
  let m := cssPadding d m
  let m := cssTextAlign d m
  let m := cssPxKey d "TextIndent" "text-indent" m
  let m := cssLineHeight d m
  let m := cssBlockMarginKey d "SpaceBefore" "margin-top" m
  let m := cssBlockMarginKey d "SpaceAfter" "margin-bottom" m
  let m := cssBlockMarginKey d "StartIndent" "margin-left" m
  let m := cssBlockMarginKey d "EndIndent" "margin-right" m
  let m := cssBBoxWH d m
  let m := cssPxKey d "Width" "width" m
  let m := cssPxKey d "Height" "height" m
  let m := cssPlacement d m
  let m := cssWritingMode d m
  let m := cssPxKey d "BaselineShift" "vertical-align" m
  let m := cssTextDeco d m
  let m := cssColorKey d "TextDecorationColor" "text-decoration-color" m
  let m := cssRubyAlign d m
  let m := cssRubyPos d m
  m

/-- `processCSSFromList` (lines 195-226). -/
def processCSSFromList (attrList : List AttrDict) (m : JsMap) : JsMap :=
  attrList.foldl (fun m d =>
    let m := match getAttrVal d "StartIndent" with
      | some v => mapSet m "margin-left" (jsStringOfVal v ++ "px")
      | none => m
    let m := match asNameVal (getAttrVal d "ListNumbering") with
      | some ln =>
        if ln ≠ "" then
          if ln = "Disc" then mapSet m "list-style-type" "disc"
          else if ln = "Circle" then mapSet m "list-style-type" "circle"
          else if ln = "Square" then mapSet m "list-style-type" "square"
          else if ln = "Decimal" then mapSet m "list-style-type" "decimal"
          else if ln = "UpperRoman" then mapSet m "list-style-type" "upper-roman"
          else if ln = "LowerRoman" then mapSet m "list-style-type" "lower-roman"
          else if ln = "UpperAlpha" then mapSet m "list-style-type" "upper-alpha"
          else if ln = "LowerAlpha" then mapSet m "list-style-type" "lower-alpha"
          else m
        else m
      | none => m
    m) m

/-- The css map assembled by `getCSSProperties` (lines 155-186): categories
    List → Table (no-op, with unknown owners) → Layout → CSS. -/
def getCSSPropertyMap (attributes : List AttrDict) : JsMap :=
  let listAttrs := attributes.filter (fun d => d.owner = some "List")
  let layoutAttrs := attributes.filter (fun d => d.owner = some "Layout")
  let cssAttrs := attributes.filter (fun d =>
    d.owner ≠ some "List" && d.owner ≠ some "Table" && d.owner ≠ some "Layout" &&
    ownerIsCSS d.owner)
  let m : JsMap := []
  let m := processCSSFromList listAttrs m
  let m := layoutAttrs.foldl (fun m d => processLayoutCSSProperties d m) m
  let m := cssAttrs.foldl (fun m d => processLayoutCSSProperties d m) m
  m

/-- `getCSSProperties` (lines 155-193): serialization `prop: value; ` per entry. -/
def getCSSProperties (attributes : List AttrDict) : String :=
  (getCSSPropertyMap attributes).foldl
    (fun acc p => acc ++ p.1 ++ ": " ++ p.2 ++ "; ") ""

/-! ## Content extraction (content_extractor.ts) -/

/-- Association-list `set` with JS `Map` in-place-update semantics, generic key. -/
def amapSet {κ α : Type} [DecidableEq κ] (m : List (κ × α)) (k : κ) (v : α) :
    List (κ × α) :=
  match m with
  | [] => [(k, v)]
  | (k', v') :: rest => if k' = k then (k, v) :: rest else (k', v') :: amapSet rest k v

/-- Association-list `get`, generic key. -/
def amapGet {κ α : Type} [DecidableEq κ] (m : List (κ × α)) (k : κ) : Option α :=
  (List.find? (fun p => p.1 = k) m).map (fun p => p.2)

/-- An image recorded during operator extraction (lines 225-236): an XObject
    paint (name plus the optional width/height arguments) or an inline image
    (its decoded payload lives behind the external conversion and is not
    consulted by any verified property). -/
inductive ExtractedImage where
  | xobj (name : String) (width height : Option Int)
  | inlineImg
deriving DecidableEq, Repr

/-- Captured marked-content properties (`Lang`, `ActualText`, `Alt`, `E`;
    lines 192-208). -/
structure MCProps where
  lang : Option String := none
  actualText : Option String := none
  alt : Option String := none
  e : Option String := none
deriving DecidableEq, Repr

/-- Whether a captured property record has at least one key
    (`Object.keys(contentProps).length > 0`). -/
def MCProps.nonempty (p : MCProps) : Bool :=
  p.lang.isSome || p.actualText.isSome || p.alt.isSome || p.e.isSome

/-- The per-page extraction result: the four tables of `ContentExtractor`
    (lines 22-27) that the verified properties consult.  Operators are
    represented by their pdf.js `OPS` code. -/
structure ExtractorState where
  mcidToText : List (Nat × String) := []
  mcidToImages : List (Nat × List ExtractedImage) := []
  mcidToOps : List (Nat × List Nat) := []
  mcidToProps : List (Nat × MCProps) := []
deriving Repr

/-- `getText` (lines 264-266): absent ids give `""`. -/
def getText (ex : ExtractorState) (mcid : Nat) : String :=
  (amapGet ex.mcidToText mcid).getD ""

/-- `getImages` (lines 268-270): absent ids give `[]`. -/
def getImages (ex : ExtractorState) (mcid : Nat) : List ExtractedImage :=
  (amapGet ex.mcidToImages mcid).getD []

/-- `getOperators` (lines 272-274): absent ids give `[]`. -/
def getOperators (ex : ExtractorState) (mcid : Nat) : List Nat :=
  (amapGet ex.mcidToOps mcid).getD []

/-- `getProperties` (lines 281-283). -/
def getProperties (ex : ExtractorState) (mcid : Nat) : Option MCProps :=
  amapGet ex.mcidToProps mcid

/-- `hasVectorOperators` (lines 285-298): a recorded operator code in
    `[13, 28]` or equal to `91`. -/
def hasVectorOperators (ex : ExtractorState) (mcid : Nat) : Bool :=
  (getOperators ex mcid).any (fun fn => (13 ≤ fn && fn ≤ 28) || fn = 91)

/-- One entry of the page operator stream as classified by the loop of
    `extractOperators` (lines 175-241).  `beginProps` is a
    `beginMarkedContentProps` whose argument is a properties dictionary
    (optional `MCID` plus the four captured keys); `beginPropsNum` is the same
    operator with a bare numeric argument; `imageOp` carries one of the five
    image paint operators together with its classification; `otherOp` is any
    other operator. -/
inductive PageStreamOp where
  | beginProps (mcid : Option Nat) (lang actualText alt e : Option String)
  | beginPropsNum (mcid : Nat)
  | beginPlain
  | endMarked
  | imageOp (fn : Nat) (img : ExtractedImage)
  | otherOp (fn : Nat)
deriving DecidableEq, Repr

/-- `recordImage` (lines 244-252): append to every active id, frames in stack
    order. -/
def recordImage (stack : List (List Nat)) (img : ExtractedImage)
    (ex : ExtractorState) : ExtractorState :=
  stack.foldl (fun ex frame =>
    frame.foldl (fun ex m =>
      { ex with mcidToImages :=
          amapSet ex.mcidToImages m (((amapGet ex.mcidToImages m).getD []) ++ [img]) })
      ex) ex

/-- `recordOp` (lines 254-262). -/
def recordOp (stack : List (List Nat)) (fn : Nat) (ex : ExtractorState) :
    ExtractorState :=
  stack.foldl (fun ex frame =>
    frame.foldl (fun ex m =>
      { ex with mcidToOps :=
          amapSet ex.mcidToOps m (((amapGet ex.mcidToOps m).getD []) ++ [fn]) })
      ex) ex

/-- The captured property record of one `beginMarkedContentProps` dictionary
    (lines 192-205): each key is kept only when its value is truthy. -/
def captureProps (lang actualText alt e : Option String) : MCProps :=
  { lang := if jsTruthyStr lang then lang else none
    actualText := if jsTruthyStr actualText then actualText else none
    alt := if jsTruthyStr alt then alt else none
    e := if jsTruthyStr e then e else none }

/-- One iteration of the `extractOperators` loop (lines 175-241), acting on the
    marked-content stack and the extraction state. -/
def extractStep (st : List (List Nat) × ExtractorState) (op : PageStreamOp) :
    List (List Nat) × ExtractorState :=
  let (stack, ex) := st
  match op with
  | .beginProps mcido lang actualText alt e =>
    let ex := match mcido with
      | some m =>
        let contentProps := captureProps lang actualText alt e
        if contentProps.nonempty then
          { ex with mcidToProps := amapSet ex.mcidToProps m contentProps }
        else ex
      | none => ex
    let mcids := match mcido with
      | some m => [m]
      | none => []
    (stack ++ [mcids], ex)
  | .beginPropsNum m => (stack ++ [[m]], ex)
  | .beginPlain => (stack ++ [[]], ex)
  | .endMarked => (stack.dropLast, ex)
  | .imageOp fn img =>
    let ex := recordImage stack img ex
    (stack, recordOp stack fn ex)
  | .otherOp fn => (stack, recordOp stack fn ex)

/-- The operator pass of `extract` (lines 169-241), from an empty stack and a
    given starting state. -/
def extractOperatorsFrom (ops : List PageStreamOp) (ex : ExtractorState) :
    ExtractorState :=
  (ops.foldl extractStep ([], ex)).2

/-! ## Marked-content leaf rendering (structure_traversal.ts lines 1226-1410) -/

/-- The `{markup, plainText, rootTagName}` record threaded through the
    traversal. -/
structure RenderedContent where
  html : String
  text : String
  rootTag : Option String
deriving DecidableEq, Repr

/-- `splitEdgeWhitespace` (lines 229-239). -/
def splitEdgeWhitespace (s : String) : String × String × String :=
  let l := s.data
  let lead := l.takeWhile isWs
  let rest := l.drop lead.length
  let trailRev := rest.reverse.takeWhile isWs
  let core := (rest.reverse.drop trailRev.length).reverse
  (String.mk lead, String.mk core, String.mk trailRev.reverse)

/-- `Math.round((pdf / 72) * 96)` (lines 1956-1960): as an exact integer
    computation, `⌊4·w/3 + 1/2⌋`. -/
def jsRound96over72 (w : Int) : Int := (8 * w + 3).fdiv 6

/-- `calculateImageDimensions` (lines 1956-1960). -/
def calculateImageDimensions (w h : Int) : Int × Int :=
  (jsRound96over72 w, jsRound96over72 h)

/-- `fetchContentForMCID` (lines 1226-1410).  The two function parameters stand
    for the external collaborators: `imgHtml` is the canvas/XObject conversion
    of one image into its `<img …>` markup (lines 1252-1346, which only touch
    the object-model provider and the platform canvas), and `renderVec` is
    `renderVectorGraphics` (lines 1462-1493, the vector emission component);
    inside a `try` the source appends its result when truthy. -/
def fetchContentForMCID (ex : ExtractorState)
    (imgHtml : ExtractedImage → Option (Int × Int) → Option String → String)
    (renderVec : List Nat → Option (List Int) → String)
    (mcid : Nat) (bbox : Option (List Int)) (imageAlt : Option String)
    (preferVector trimText : Bool) : RenderedContent :=
  let images := getImages ex mcid
  let hasImages := images ≠ []
  let bboxDims : Option (Int × Int) := match bbox with
    | some [b0, b1, b2, b3] =>
        some (calculateImageDimensions (b2 - b0).natAbs (b3 - b1).natAbs)
    | _ => none
  let html0 := images.foldl (fun acc img => acc ++ imgHtml img bboxDims imageAlt) ""
  let props := getProperties ex mcid
  let rawText := match props with
    | some p => if jsTruthyStr p.actualText then p.actualText.getD "" else getText ex mcid
    | none => getText ex mcid
  let parts := splitEdgeWhitespace rawText
  let leadingWs := if trimText then "" else parts.1
  let coreText := parts.2.1
  let trailingWs := if trimText then "" else parts.2.2
  let renderedText := if trimText then coreText else rawText
  let escapedLeading := escapeHtml leadingWs
  let escapedCore := escapeHtml coreText
  let escapedTrailing := escapeHtml trailingWs
  let escapedText := escapeHtml renderedText
  let hasVector := bbox.isSome && hasVectorOperators ex mcid
  let suppressText := preferVector && !hasImages && hasVector
  let langOpt : Option String := match props with
    | some p => if jsTruthyStr p.lang then p.lang else none
    | none => none
  let altOpt : Option String := match props with
    | some p => if jsTruthyStr p.alt then p.alt else none
    | none => none
  let (html1, text1) :=
    if escapedText ≠ "" && !suppressText then
      match langOpt with
      | some lv =>
        (html0 ++ escapedLeading ++ "<span lang=" ++ String.singleton quotC ++
           escapeHtml lv ++ String.singleton quotC ++
           (match altOpt with
            | some av => " title=" ++ String.singleton quotC ++ escapeHtml av ++
                String.singleton quotC
            | none => "") ++ ">" ++ escapedCore ++ "</span>" ++ escapedTrailing,
         renderedText)
      | none =>
        (html0 ++ escapedLeading ++ escapedCore ++ escapedTrailing, renderedText)
    else if altOpt.isSome && escapedText = "" then
      (html0 ++ "<span title=" ++ String.singleton quotC ++
         escapeHtml (altOpt.getD "") ++ String.singleton quotC ++ "></span>", "")
    else (html0, "")
  let html2 :=
    if !hasImages && hasVector && (preferVector || escapedText = "") then
      let ops := getOperators ex mcid
      if ops ≠ [] then
        let svg := renderVec ops bbox
        if svg ≠ "" then html1 ++ svg else html1
      else html1
    else html1
  { html := html2, text := text1, rootTag := none }

/-! ## The structure tree (structure_traversal.ts)

A structure element carries the dictionary entries the traversal reads
(`S`, `NS`, `ID`, `Lang`, `T`, `Alt`, `ActualText`, `E`, `A`/`Dest` for links,
`A` attribute dictionaries, `C` class names) and its `K` children.  `actionURI`
models an `A` action dictionary of type `URI` (the only action kind exercised
here); `destName` models a named `Dest` entry.  OBJR and MCR dictionary leaves
are outside the model (see the header). -/

mutual
inductive StructElem where
  | mk (sType nsURI idv langv titlev altv actualTextv expansionv
        actionURI destName : Option String)
       (attrsL : List AttrDict) (classesL : List String)
       (kidsL : List StructChild)

inductive StructChild where
  | contentId (n : Nat)
  | elem (e : StructElem)
end

/-- The `S` entry. -/
def StructElem.sRaw : StructElem → Option String
  | .mk s _ _ _ _ _ _ _ _ _ _ _ _ => s

/-- The resolved namespace string (`getNamespaceURI`, `""` when absent). -/
def StructElem.nsURI : StructElem → Option String
  | .mk _ ns _ _ _ _ _ _ _ _ _ _ _ => ns

/-- The `ID` entry. -/
def StructElem.idv : StructElem → Option String
  | .mk _ _ i _ _ _ _ _ _ _ _ _ _ => i

/-- The `Lang` entry. -/
def StructElem.langv : StructElem → Option String
  | .mk _ _ _ l _ _ _ _ _ _ _ _ _ => l

/-- The `T` (title) entry. -/
def StructElem.titlev : StructElem → Option String
  | .mk _ _ _ _ t _ _ _ _ _ _ _ _ => t

/-- The `Alt` entry. -/
def StructElem.altv : StructElem → Option String
  | .mk _ _ _ _ _ a _ _ _ _ _ _ _ => a

/-- The `ActualText` entry. -/
def StructElem.actualTextv : StructElem → Option String
  | .mk _ _ _ _ _ _ a _ _ _ _ _ _ => a

/-- The `E` (expansion text) entry. -/
def StructElem.expansionv : StructElem → Option String
  | .mk _ _ _ _ _ _ _ e _ _ _ _ _ => e

/-- The `A` action entry, when it is a `URI` action: its URI. -/
def StructElem.actionURI : StructElem → Option String
  | .mk _ _ _ _ _ _ _ _ a _ _ _ _ => a

/-- The `Dest` entry, when it is a named destination. -/
def StructElem.destName : StructElem → Option String
  | .mk _ _ _ _ _ _ _ _ _ d _ _ _ => d

/-- The `A` attribute dictionaries. -/
def StructElem.attrsL : StructElem → List AttrDict
  | .mk _ _ _ _ _ _ _ _ _ _ a _ _ => a

/-- The `C` class names. -/
def StructElem.classesL : StructElem → List String
  | .mk _ _ _ _ _ _ _ _ _ _ _ c _ => c

/-- The `K` children. -/
def StructElem.kidsL : StructElem → List StructChild
  | .mk _ _ _ _ _ _ _ _ _ _ _ _ k => k

/-- The structure type, with the falsy empty name treated as missing
    (`if (!sType)`). -/
def StructElem.sTypeOf (e : StructElem) : Option String :=
  match e.sRaw with
  | some s => if s = "" then none else some s
  | none => none

mutual
/-- Size measure for the traversal's well-founded recursion. -/
def StructElem.msize : StructElem → Nat
  | .mk _ _ _ _ _ _ _ _ _ _ _ _ kids => 1 + kidsMSize kids

/-- Size of one child (an element child weighs its own size plus two, so every
    recursive call of the traversal strictly shrinks the measure). -/
def StructChild.csize : StructChild → Nat
  | .contentId _ => 1
  | .elem e => 2 + e.msize

/-- Size of a child list. -/
def kidsMSize : List StructChild → Nat
  | [] => 0
  | c :: rest => c.csize + kidsMSize rest
end

theorem msize_eq (e : StructElem) : e.msize = 1 + kidsMSize e.kidsL := by
  cases e; rfl

theorem csize_pos (c : StructChild) : 1 ≤ c.csize := by
  cases c
  · simp [StructChild.csize]
  · simp only [StructChild.csize]
    omega

theorem kidsMSize_append (a b : List StructChild) :
    kidsMSize (a ++ b) = kidsMSize a + kidsMSize b := by
  induction a with
  | nil => simp [kidsMSize]
  | cons c rest ih => simp [kidsMSize, ih]; omega

theorem kidsMSize_filter_both (p : StructChild → Bool) (ks : List StructChild) :
    kidsMSize (ks.filter p) + kidsMSize (ks.filter (fun c => !(p c))) =
      kidsMSize ks := by
  induction ks with
  | nil => simp [kidsMSize]
  | cons c rest ih =>
    by_cases hp : p c = true
    · simp only [List.filter_cons, hp, if_true, Bool.not_true, if_false,
        Bool.false_eq_true, kidsMSize]
      omega
    · have hp' : p c = false := by simpa using hp
      simp only [List.filter_cons, hp', Bool.not_false, if_true, if_false,
        Bool.false_eq_true, kidsMSize]
      omega

/-! ## Traversal environment and context -/

/-- The per-conversion environment: the role map and class map of the structure
    tree root, the (single modelled page's) extraction result, and the two
    external collaborators of the content renderer. -/
structure DocEnv where
  roleMap : RoleMap
  classMap : List (String × List AttrDict)
  ex : ExtractorState
  imgHtml : ExtractedImage → Option (Int × Int) → Option String → String
  renderVec : List Nat → Option (List Int) → String

/-- `TraversalContext` (structure_traversal.ts lines 14-24); the id-allocation
    counter is threaded separately. -/
structure Ctx where
  parentRole : Option String := none
  listNumbering : Option String := none
  listHasLbl : Bool := false
  bbox : Option (List Int) := none
  headingLevel : Option Int := none
  imageAlt : Option String := none
  preferVector : Bool := false
  mathmlTokenContext : Bool := false

/-- The resolved role of an element (`resolveRole` on its type and namespace). -/
def roleOfElem (env : DocEnv) (e : StructElem) : Option String :=
  (e.sTypeOf).map (fun s => resolveRole s env.roleMap e.nsURI)

/-- `getElementInfo` (lines 361-379): resolved role and `dict.has("ActualText")`. -/
def getElementInfo (env : DocEnv) (c : StructChild) : Option String × Bool :=
  match c with
  | .contentId _ => (none, false)
  | .elem e =>
    match e.sTypeOf with
    | none => (none, false)
    | some s => (some (resolveRole s env.roleMap e.nsURI), e.actualTextv.isSome)

/-- Whether a child resolves to `Caption` (`reorderCaptionElements` test). -/
def isCaptionChild (env : DocEnv) (c : StructChild) : Bool :=
  match c with
  | .contentId _ => false
  | .elem e =>
    match e.sTypeOf with
    | none => false
    | some s => resolveRole s env.roleMap e.nsURI = "Caption"

/-- `reorderCaptionElements` (lines 300-337): captions first, then the rest,
    each in original order. -/
def reorderCaptionElements (env : DocEnv) (ks : List StructChild) :
    List StructChild :=
  ks.filter (fun c => isCaptionChild env c) ++
    ks.filter (fun c => !(isCaptionChild env c))

theorem kidsMSize_reorder (env : DocEnv) (ks : List StructChild) :
    kidsMSize (reorderCaptionElements env ks) = kidsMSize ks := by
  unfold reorderCaptionElements
  rw [kidsMSize_append]
  exact kidsMSize_filter_both (fun c => isCaptionChild env c) ks

/-! ## Role/tag helpers -/

/-- `isHeadingRoleName` (lines 1098-1102), with the `/^H\\d+$/` literal. -/
def isHeadingRoleName (role : String) : Bool :=
  role = "H" || role = "Hn" || role = "Title" || matchesHBackslashD role

/-- `isHeadingRoleName` lifted to the optional parent role. -/
def isHeadingRoleOpt (role : Option String) : Bool :=
  match role with
  | some r => isHeadingRoleName r
  | none => false

/-- The inline structure-type set of `isInlineContext` (lines 2075-2088). -/
def inlineTypesList : List String :=
  [ "Span", "Quote", "Reference", "BibEntry", "Code", "Link",
    "Annot", "Ruby", "RB", "RT", "RP", "Warichu", "WT", "WP",
    "P", "H", "H1", "H2", "H3", "H4", "H5", "H6",
    "Em", "Strong", "Sub", "Sup", "TH", "TD" ]

/-- `isInlineContext` (lines 2075-2088). -/
def isInlineContext (parentRole : Option String) : Bool :=
  match parentRole with
  | none => false
  | some r => isHeadingRoleName r || inlineTypesList.contains r

/-- `isMathMLTokenElement` (lines 1104-1112). -/
def isMathMLTokenElement (tag : String) : Bool :=
  let n := lowerStr tag
  n = "mi" || n = "mn" || n = "mo" || n = "mtext" || n = "ms"

/-- `mapRoleToTag` (lines 1114-1195). -/
def mapRoleToTag (role : String) (parentRole : Option String) : String :=
  if role = "P" && isHeadingRoleOpt parentRole then "span"
  else if role = "Document" then "div"
  else if role = "Part" then "div"
  else if role = "Sect" then "section"
  else if role = "Div" then "div"
  else if role = "Art" then "article"
  else if role = "Aside" then "aside"
  else if role = "Note" then "p"
  else if role = "Index" then "section"
  else if role = "NonStruct" then "div"
  else if role = "Private" then "div"
  else if role = "Title" then "h1"
  else if role = "FENote" then "aside"
  else if role = "DocumentFragment" then "div"
  else if role = "P" then "p"
  else if role = "H" then "h2"
  else if role = "H1" then "h1"
  else if role = "H2" then "h2"
  else if role = "H3" then "h3"
  else if role = "H4" then "h4"
  else if role = "H5" then "h5"
  else if role = "H6" then "h6"
  else if role = "BlockQuote" then "blockquote"
  else if role = "Caption" then
    if parentRole = some "Table" then "caption"
    else if parentRole = some "Figure" || parentRole = some "Formula" then "figcaption"
    else "caption"
  else if role = "TOC" then "ol"
  else if role = "TOCI" then "li"
  else if role = "L" then "ul"
  else if role = "LI" then "li"
  else if role = "Lbl" then "span"
  else if role = "LBody" then "div"
  else if role = "Table" then "table"
  else if role = "TR" then "tr"
  else if role = "TH" then "th"
  else if role = "TD" then "td"
  else if role = "THead" then "thead"
  else if role = "TBody" then "tbody"
  else if role = "TFoot" then "tfoot"
  else if role = "Span" then "span"
  else if role = "Quote" then "q"
  else if role = "Code" then "code"
  else if role = "Em" then "em"
  else if role = "Strong" then "strong"
  else if role = "Sub" then "sub"
  else if role = "Sup" then "sup"
  else if role = "Link" then "a"
  else if role = "Reference" then "a"
  else if role = "BibEntry" then "p"
  else if role = "Ruby" then "ruby"
  else if role = "RB" then "rb"
  else if role = "RT" then "rt"
  else if role = "RP" then "rp"
  else if role = "Warichu" then "span"
  else if role = "WT" then "span"
  else if role = "WP" then "span"
  else if role = "Annot" then "span"
  else if role = "Figure" then
    if isInlineContext parentRole then "span" else "figure"
  else if role = "Formula" then
    if isInlineContext parentRole then "span" else "figure"
  else if role = "Form" then "div"
  else "div"

/-! ## Inline-space heuristics (lines 174-298) -/

/-- `getFirstVisibleChar` (lines 204-207). -/
def getFirstVisibleChar (s : String) : Option Char :=
  s.data.find? (fun c => !isWs c)

/-- `getLastVisibleChar` (lines 209-215). -/
def getLastVisibleChar (s : String) : Option Char :=
  s.data.reverse.find? (fun c => !isWs c)

/-- `hasVisibleText` (lines 217-219). -/
def hasVisibleText (s : String) : Bool := s.data.any (fun c => !isWs c)

/-- `hasLeadingWhitespace` (lines 221-223). -/
def hasLeadingWs (s : String) : Bool :=
  match s.data with
  | c :: _ => isWs c
  | [] => false

/-- `hasTrailingWhitespace` (lines 225-227). -/
def hasTrailingWs (s : String) : Bool :=
  match s.data.reverse with
  | c :: _ => isWs c
  | [] => false

/-- The sentence-ending class `/[:;.!?]/`. -/
def isSentenceEnd (c : Char) : Bool :=
  c = ':' || c = ';' || c = '.' || c = '!' || c = '?'

/-- The opener class of line 197 (`(`, `[`, `{`, `"`, apostrophe, `/`, `-`). -/
def isOpenerChar (c : Char) : Bool :=
  c = '(' || c = '[' || c = Char.ofNat 123 || c = quotC || c = aposC ||
    c = '/' || c = '-'

/-- The closer class of line 198 (`]`, `)`, `}`, `.`, `,`, `;`, `:`, `!`, `?`, `%`). -/
def isCloserChar (c : Char) : Bool :=
  c = ']' || c = ')' || c = Char.ofNat 125 || c = '.' || c = ',' || c = ';' ||
    c = ':' || c = '!' || c = '?' || c = '%'

/-- `shouldInsertInlineSpace` (lines 174-202). -/
def shouldInsertInlineSpace (parentRole : Option String) (childRole : Option String)
    (prevText nextText : String) (prevHadAT nextHasAT : Bool)
    (nextRootTag : Option String) : Bool :=
  if !isInlineContext parentRole then false
  else if prevText = "" || nextText = "" then false
  else if childRole = some "Sup" || childRole = some "Sub" then false
  else if nextRootTag = some "sup" || nextRootTag = some "sub" then false
  else if !hasVisibleText prevText || !hasVisibleText nextText then false
  else if hasTrailingWs prevText || hasLeadingWs nextText then false
  else
    match getLastVisibleChar prevText, getFirstVisibleChar nextText with
    | some pc, some nc =>
      if !(prevHadAT || nextHasAT || isSentenceEnd pc) then false
      else if isOpenerChar pc then false
      else if isCloserChar nc then false
      else if !isWordChar nc then false
      else true
    | _, _ => false

theorem kidsMSize_cons (c : StructChild) (rest : List StructChild) :
    kidsMSize (c :: rest) = c.csize + kidsMSize rest := rfl

/-! ## Recursive descendant helpers -/

mutual
/-- The inner `hasLblDescendant` of `hasLblChildren` (lines 395-420); the
    WeakSet guard is vacuous on trees. -/
def hasLblDescendant (env : DocEnv) (e : StructElem) : Bool :=
  (match e.sTypeOf with
   | some s => resolveRole s env.roleMap e.nsURI = "Lbl"
   | none => false) ||
  hasLblDescendantKids env e.kidsL
  termination_by e.msize
  decreasing_by
    rw [msize_eq]; omega

/-- `hasLblDescendant` over a child list. -/
def hasLblDescendantKids (env : DocEnv) : List StructChild → Bool
  | [] => false
  | .contentId _ :: rest => hasLblDescendantKids env rest
  | .elem ce :: rest => hasLblDescendant env ce || hasLblDescendantKids env rest
  termination_by ks => kidsMSize ks
  decreasing_by
    all_goals simp only [kidsMSize_cons, StructChild.csize]
    all_goals omega
end

/-- `hasLblChildren` (lines 382-443): some child with the given list-item role
    has a `Lbl` descendant. -/
def hasLblChildren (env : DocEnv) (e : StructElem) (listItemRole : String) : Bool :=
  e.kidsL.any (fun c =>
    match c with
    | .contentId _ => false
    | .elem ce =>
      match ce.sTypeOf with
      | none => false
      | some s =>
        if resolveRole s env.roleMap ce.nsURI = listItemRole then
          hasLblDescendant env ce
        else false)

mutual
/-- `getPlainTextForStructElement` (lines 959-1001): `ActualText` short-circuits,
    otherwise child text is concatenated (content ids through the extractor). -/
def plainTextOfElem (env : DocEnv) (e : StructElem) : String :=
  match e.actualTextv with
  | some t => if t ≠ "" then t else plainTextKids env e.kidsL
  | none => plainTextKids env e.kidsL
  termination_by e.msize
  decreasing_by
    all_goals rw [msize_eq]
    all_goals omega

/-- Plain text of a child list. -/
def plainTextKids (env : DocEnv) : List StructChild → String
  | [] => ""
  | .contentId n :: rest => getText env.ex n ++ plainTextKids env rest
  | .elem ce :: rest => plainTextOfElem env ce ++ plainTextKids env rest
  termination_by ks => kidsMSize ks
  decreasing_by
    all_goals simp only [kidsMSize_cons, StructChild.csize]
    all_goals omega
end

/-! ## List numbering and labels -/

/-- `getAttribute` (lines 861-872): the first truthy value under the key across
    the attribute dictionaries. -/
def getAttribute (attrs : List AttrDict) (n : String) : Option AttrVal :=
  attrs.findSome? (fun d =>
    match getAttrVal d n with
    | some v => if jsTruthyVal v then some v else none
    | none => none)

/-- `getPronunciationHint` (lines 875-882). -/
def getPronunciationHint (attrs : List AttrDict) : Option String :=
  match getAttribute attrs "Phoneme" with
  | some v => some (jsStringOfVal v)
  | none =>
    match getAttribute attrs "Pronunciation" with
    | some v => some (jsStringOfVal v)
    | none => none

/-- `getListNumbering` (lines 913-941): the direct `ListNumbering` attribute,
    else the first `List`-owned `ListNumbering` reachable through the class
    map. -/
def getListNumbering (env : DocEnv) (attrs : List AttrDict)
    (classes : List String) : Option String :=
  let direct := asNameVal (getAttribute attrs "ListNumbering")
  if jsTruthyStr direct then direct
  else if classes = [] then none
  else
    classes.findSome? (fun cn =>
      match amapGet env.classMap cn with
      | some ds =>
        ds.findSome? (fun d =>
          if d.owner = some "List" then
            match asNameVal (getAttrVal d "ListNumbering") with
            | some ln => if ln ≠ "" then some ln else none
            | none => none
          else none)
      | none => none)

/-- `replace(/\s+/g, " ")`: collapse whitespace runs to single spaces. -/
def collapseWsGo : List Char → Bool → List Char
  | [], _ => []
  | c :: rest, inWs =>
    if isWs c then
      (if inWs then collapseWsGo rest true else ' ' :: collapseWsGo rest true)
    else c :: collapseWsGo rest false

/-- `text.replace(/\s+/g, " ").trim()` of line 1040. -/
def normalizeLabel (s : String) : String :=
  (String.mk (collapseWsGo s.data false)).trim

/-- The first maximal digit run of a string (`match(/\d+/)`). -/
def firstDigitRun : List Char → Option (List Char)
  | [] => none
  | c :: rest =>
    if isDigitC c then some (c :: rest.takeWhile isDigitC)
    else firstDigitRun rest

/-- The first maximal letter run of a string (`match(/[A-Za-z]+/)`). -/
def firstLetterRun : List Char → Option (List Char)
  | [] => none
  | c :: rest =>
    if c.isAlpha then some (c :: rest.takeWhile Char.isAlpha)
    else firstLetterRun rest

/-- `parseListStart` (lines 1048-1054). -/
def parseListStart (labelText : Option String) : Option Int :=
  match labelText with
  | none => none
  | some t =>
    if t = "" then none
    else (firstDigitRun t.data).map (fun ds => ((String.mk ds).toNat! : Int))

/-- The roman-numeral letter test of line 1066. -/
def isRomanLetters (l : List Char) : Bool :=
  l.all (fun c =>
    let lc := c.toLower
    lc = 'i' || lc = 'v' || lc = 'x' || lc = 'l' || lc = 'c' ||
      lc = 'd' || lc = 'm')

/-- `parseListType` (lines 1056-1075). -/
def parseListType (labelText : Option String) : Option String :=
  match labelText with
  | none => none
  | some t =>
    if t = "" then none
    else
      match firstLetterRun t.data with
      | none => none
      | some run =>
        let letters := String.mk run
        let isUpper := upperStr letters = letters
        if isRomanLetters run then some (if isUpper then "I" else "i")
        else some (if isUpper then "A" else "a")

/-- The first immediate `Lbl` child of a child list (inner loop of
    `getFirstListLabelText`, lines 1027-1042). -/
def firstLblOf (env : DocEnv) (kids : List StructChild) : Option StructElem :=
  kids.findSome? (fun c =>
    match c with
    | .contentId _ => none
    | .elem ce =>
      match ce.sTypeOf with
      | none => none
      | some s =>
        if resolveRole s env.roleMap ce.nsURI = "Lbl" then some ce else none)

/-- `getFirstListLabelText` (lines 1003-1046): the first `Lbl` inside the first
    `LI` that has one; its plain text, whitespace-normalized (`null` when it
    trims to nothing). -/
def getFirstListLabelText (env : DocEnv) (e : StructElem) : Option String :=
  match e.kidsL.findSome? (fun c =>
      match c with
      | .contentId _ => none
      | .elem ce =>
        match ce.sTypeOf with
        | none => none
        | some s =>
          if resolveRole s env.roleMap ce.nsURI = "LI" then
            firstLblOf env ce.kidsL
          else none) with
  | some lbl =>
    let t := normalizeLabel (plainTextOfElem env lbl)
    if t = "" then none else some t
  | none => none

/-- `hasLinkChild` (lines 445-463): only IMMEDIATE children are inspected. -/
def hasLinkChild (env : DocEnv) (e : StructElem) : Bool :=
  e.kidsL.any (fun c =>
    match c with
    | .contentId _ => false
    | .elem ce =>
      match ce.sTypeOf with
      | none => false
      | some s => resolveRole s env.roleMap ce.nsURI = "Link")

/-! ## Destinations (lines 2009-2072) -/

/-- Upper-case hexadecimal digit. -/
def hexDigit (n : Nat) : Char :=
  if n < 10 then Char.ofNat (48 + n) else Char.ofNat (55 + n)

/-- `encodeURIComponent` unreserved characters. -/
def isUriUnreserved (c : Char) : Bool :=
  c.isAlpha || c.isDigit || c = '-' || c = '_' || c = '.' || c = '!' ||
    c = '~' || c = '*' || c = aposC || c = '(' || c = ')'

/-- `encodeURIComponent`: UTF-8 percent-encoding of reserved characters. -/
def encodeURIComponent (s : String) : String :=
  String.mk (s.data.flatMap (fun c =>
    if isUriUnreserved c then [c]
    else
      (String.toUTF8 (String.singleton c)).toList.flatMap (fun b =>
        ['%', hexDigit (b.toNat / 16), hexDigit (b.toNat % 16)])))

/-- `convertDestToFragment` (lines 2037-2072) for the modelled named
    destinations: `#` plus the URL-encoded name.  (Structured destinations that
    resolve to structure elements, and page-array destinations, involve object
    references outside the model.) -/
def convertDestToFragment (dest : String) : String :=
  "#" ++ encodeURIComponent dest

/-! ## Tag selection (processStructElement, lines 465-716) -/

/-- The outcome of the tag-selection phase of `processStructElement`. -/
structure TagSel where
  tag : String
  mappedRole : String
  listStart : Option Int
  listType : Option String
  headingAriaLevel : Option Int
  newCtx : Ctx

/-- The grouping roles that increment the heading depth (line 595). -/
def groupingRole (r : String) : Bool :=
  r = "Sect" || r = "Div" || r = "Art" || r = "Aside" || r = "Part" ||
    r = "DocumentFragment"

/-- The heading block (lines 599-624): table-cell guard, then level selection.
    Returns the (possibly overridden) tag and the aria level. -/
def headingSel (ctx : Ctx) (mappedRole tag0 : String) : String × Option Int :=
  let isExplicitHeading := matchesHBackslashD mappedRole
  let isGenericHeading := mappedRole = "H" || mappedRole = "Hn" || mappedRole = "Title"
  if isExplicitHeading || isGenericHeading then
    if ctx.parentRole = some "TH" || ctx.parentRole = some "TD" then ("p", none)
    else
      let fallback := jsOrI ctx.headingLevel 2
      let lvl0 : Option Int :=
        if mappedRole = "Title" then some 1
        else if isExplicitHeading then parseIntJs (String.mk mappedRole.data.tail)
        else some fallback
      let level := match lvl0 with
        | some v => if v ≤ 0 then fallback else v
        | none => fallback
      if level ≤ 6 then ("h" ++ toString level, none) else ("p", some level)
  else (tag0, none)

/-- Outcome of the list-role chain (lines 626-683). -/
structure ListSel where
  tag : String
  listStart : Option Int
  listType : Option String
  ctx : Ctx

/-- The `L`/`TOC`/`LI`/`Lbl`/`LBody` chain (lines 626-683); other roles pass the
    mapped role down as the children's parent role. -/
def listChainSel (env : DocEnv) (ctx2 : Ctx) (e : StructElem)
    (mappedRole tag1 : String) : ListSel :=
  if mappedRole = "L" then
    let listNumbering := match getListNumbering env e.attrsL e.classesL with
      | some s => if s = "" then "None" else s
      | none => "None"
    let listHasLbl := hasLblChildren env e "LI"
    let tagL := if listNumbering = "Description" then "dl"
      else if listNumbering ≠ "None" then "ol" else "ul"
    let ctx3 := { ctx2 with
      parentRole := some "L"
      listNumbering := some listNumbering
      listHasLbl := listHasLbl }
    if listHasLbl && listNumbering ≠ "None" && listNumbering ≠ "Description" then
      let labelText := getFirstListLabelText env e
      { tag := tagL, listStart := parseListStart labelText,
        listType := parseListType labelText, ctx := ctx3 }
    else
      { tag := tagL, listStart := none, listType := none, ctx := ctx3 }
  else if mappedRole = "TOC" then
    let ctx3 := { ctx2 with
      parentRole := some "TOC"
      listHasLbl := hasLblChildren env e "TOCI" }
    { tag := tag1, listStart := none, listType := none, ctx := ctx3 }
  else if mappedRole = "LI" then
    { tag := if ctx2.listNumbering = some "Description" then "div" else "li",
      listStart := none, listType := none,
      ctx := { ctx2 with parentRole := some "LI" } }
  else if mappedRole = "Lbl" then
    { tag :=
        if ctx2.parentRole = some "LI" then
          (if ctx2.listNumbering = some "Description" then "dt" else "span")
        else if ctx2.parentRole = some "Form" then "label"
        else "span",
      listStart := none, listType := none, ctx := ctx2 }
  else if mappedRole = "LBody" then
    { tag :=
        if ctx2.parentRole = some "LI" then
          (if ctx2.listNumbering = some "Description" then "dd" else "div")
        else "div",
      listStart := none, listType := none, ctx := ctx2 }
  else
    { tag := tag1, listStart := none, listType := none,
      ctx := { ctx2 with parentRole := some mappedRole } }

/-- Tag selection and context updates of `processStructElement`
    (lines 564-699): namespace dispatch, role mapping, grouping depth, heading
    block, list chain, `TextPosition` override, MathML token flag. -/
def selectTag (env : DocEnv) (ctx ctx1 : Ctx) (e : StructElem) (sType : String) :
    TagSel :=
  let namespaceURI := e.nsURI
  let isMathML := namespaceURI = some "http://www.w3.org/1998/Math/MathML"
  let isHtmlNs := namespaceURI = some "http://www.w3.org/1999/xhtml"
  if isMathML then
    { tag := sType, mappedRole := sType, listStart := none, listType := none,
      headingAriaLevel := none,
      newCtx := { ctx1 with mathmlTokenContext := isMathMLTokenElement sType } }
  else if isHtmlNs then
    { tag := lowerStr sType, mappedRole := sType, listStart := none,
      listType := none, headingAriaLevel := none,
      newCtx := { ctx1 with mathmlTokenContext := false } }
  else
    let mappedRole := resolveRole sType env.roleMap namespaceURI
    let tag0 := mapRoleToTag mappedRole ctx.parentRole
    let ctx2 := if groupingRole mappedRole then
        { ctx1 with headingLevel := some (jsOrI ctx.headingLevel 1 + 1) }
      else ctx1
    let hs := headingSel ctx mappedRole tag0
    let ls := listChainSel env ctx2 e mappedRole hs.1
    let tpn := asNameVal (getAttribute e.attrsL "TextPosition")
    let tag3 :=
      if tpn = some "Sup" then (if mappedRole ≠ "Sup" then "sup" else ls.tag)
      else if tpn = some "Sub" then (if mappedRole ≠ "Sub" then "sub" else ls.tag)
      else ls.tag
    { tag := tag3, mappedRole := mappedRole, listStart := ls.listStart,
      listType := ls.listType, headingAriaLevel := hs.2,
      newCtx := { ls.ctx with mathmlTokenContext := false } }

/-- The attribute-string assembly of `processStructElement` (lines 718-812):
    cascade attributes, provenance attributes, heading aria attributes,
    id/lang/alt/title, pronunciation, list continuation/start/type, classes and
    inline style.  Returns the attribute string, the `altStr` value and the
    advanced id counter. -/
def buildElemAttrs (_env : DocEnv) (ctxOrig : Ctx) (sel : TagSel) (e : StructElem)
    (sType : String) (cnt : Nat) : String × String × Nat :=
  let q := String.singleton quotC
  let attrs := getHTMLAttributes e.attrsL
  let attrs := attrs ++ (if sel.mappedRole ≠ "" then
      " data-pdf-se-type=" ++ q ++ escapeHtml sel.mappedRole ++ q else "")
  let attrs := attrs ++ (if sType ≠ "" && sType ≠ sel.mappedRole then
      " data-pdf-se-type-original=" ++ q ++ escapeHtml sType ++ q else "")
  let attrs := attrs ++ (match sel.headingAriaLevel with
    | some lv => " role=" ++ q ++ "heading" ++ q ++ " aria-level=" ++ q ++
        toString lv ++ q
    | none => "")
  let pr := if jsTruthyStr e.idv then
      (attrs ++ " id=" ++ q ++ escapeHtml (e.idv.getD "") ++ q, cnt)
    else
      (attrs ++ " id=" ++ q ++ escapeHtml ("pdf-se-" ++ toString cnt) ++ q, cnt + 1)
  let attrs := pr.1
  let cnt1 := pr.2
  let attrs := attrs ++ (if jsTruthyStr e.langv then
      " lang=" ++ q ++ escapeHtml (e.langv.getD "") ++ q else "")
  let altStr := if jsTruthyStr e.altv then e.altv.getD "" else ""
  let attrs := attrs ++ (if jsTruthyStr e.altv then
      " alt=" ++ q ++ escapeHtml altStr ++ q else "")
  let attrs := attrs ++ (if jsTruthyStr e.titlev then
      " title=" ++ q ++ escapeHtml (e.titlev.getD "") ++ q else "")
  let attrs := attrs ++ (match getPronunciationHint e.attrsL with
    | some p => if p ≠ "" then
        " data-pdf-pronunciation=" ++ q ++ escapeHtml p ++ q else ""
    | none => "")
  let attrs := attrs ++ (if sel.mappedRole = "L" && sel.tag = "ol" then
      match getAttribute e.attrsL "ContinuedFrom" with
      | some v => " data-continued-from=" ++ q ++ escapeHtml (jsStringOfVal v) ++ q
      | none => ""
    else "")
  let attrs := attrs ++ (if sel.mappedRole = "L" && sel.tag = "ol" then
      match sel.listStart with
      | some v => if v > 1 then " start=" ++ q ++ toString v ++ q else ""
      | none => ""
    else "")
  let attrs := attrs ++ (if sel.mappedRole = "L" && sel.tag = "ol" then
      match sel.listType with
      | some t => " type=" ++ q ++ t ++ q
      | none => ""
    else "")
  let classStr := String.intercalate " " e.classesL
  let attrs := attrs ++ (if e.classesL ≠ [] && classStr ≠ "" then
      " class=" ++ q ++ escapeHtml classStr ++ q else "")
  let style0 := getCSSProperties e.attrsL
  let style1 := if (sel.mappedRole = "L" || sel.mappedRole = "TOC") &&
      sel.newCtx.listHasLbl then
      (if style0 ≠ "" then style0 ++ " list-style-type: none;"
       else "list-style-type: none")
    else style0
  let style2 := if sel.mappedRole = "LBody" && ctxOrig.listHasLbl &&
      ctxOrig.listNumbering ≠ some "Description" then
      (if style1 ≠ "" then style1 ++ " display: inline-block; vertical-align: top;"
       else "display:inline-block; vertical-align: top;")
    else style1
  let style3 := if sel.mappedRole = "Lbl" && ctxOrig.parentRole = some "LI" &&
      ctxOrig.listNumbering ≠ some "Description" then
      (if style2 ≠ "" then
        style2 ++ " display: inline-block; vertical-align: top; margin-right: 0.4em;"
       else "display:inline-block; vertical-align: top; margin-right: 0.4em;")
    else style2
  let attrs := attrs ++ (if style3 ≠ "" then
      " style=" ++ q ++ escapeHtml style3 ++ q else "")
  (attrs, altStr, cnt1)

/-! ## The traversal (processStructElement / processChildren / processLink) -/

mutual
/-- `processStructElement` on an element child (lines 465-858): bbox context,
    transparent wrapper for missing types, tag selection, Reference collapsing,
    links, attribute assembly, `ActualText` override, expansion text,
    suppression roles and void tags.  (MCR/OBJR dictionary leaves and
    associated files are outside the model, see the header.) -/
def renderElem (env : DocEnv) (ctx : Ctx) (e : StructElem) (cnt : Nat) :
    RenderedContent × Nat :=
  let bbox := getBBox e.attrsL
  let ctx1 := { ctx with bbox := match bbox with
    | some b => some b
    | none => ctx.bbox }
  match e.sTypeOf with
  | none =>
    let r := renderKidsGo env ctx1 (reorderCaptionElements env e.kidsL) "" "" false cnt
    ({ html := r.1.html, text := r.1.text, rootTag := none }, r.2)
  | some sType =>
    let sel := selectTag env ctx ctx1 e sType
    if sel.mappedRole = "Reference" && hasLinkChild env e then
      renderKidsGo env { sel.newCtx with parentRole := ctx.parentRole }
        (reorderCaptionElements env e.kidsL) "" "" false cnt
    else if sel.mappedRole = "Link" then
      renderLink env sel.newCtx e cnt
    else
      let ba := buildElemAttrs env ctx sel e sType cnt
      let attrs := ba.1
      let altStr := ba.2.1
      let cnt1 := ba.2.2
      let ctxK :=
        let c0 := sel.newCtx
        let c1 := if sel.mappedRole = "Figure" || sel.mappedRole = "Formula" then
            { c0 with preferVector := true } else c0
        if (sel.mappedRole = "Figure" || sel.mappedRole = "Formula") &&
            altStr ≠ "" then
          { c1 with imageAlt := some altStr } else c1
      let tri :=
        if jsTruthyStr e.actualTextv then
          ((escapeHtml (e.actualTextv.getD ""), e.actualTextv.getD ""), cnt1)
        else
          let r := renderKidsGo env ctxK (reorderCaptionElements env e.kidsL)
            "" "" false cnt1
          ((r.1.html, r.1.text), r.2)
      let content0 := tri.1.1
      let contentText := tri.1.2
      let cnt2 := tri.2
      let content := if jsTruthyStr e.expansionv then
          "<abbr title=" ++ String.singleton quotC ++
            escapeHtml (e.expansionv.getD "") ++ String.singleton quotC ++ ">" ++
            content0 ++ "</abbr>"
        else content0
      if sel.mappedRole = "NonStruct" then
        ({ html := content, text := contentText, rootTag := none }, cnt2)
      else if sel.mappedRole = "Private" || sel.mappedRole = "Artifact" then
        ({ html := "", text := "", rootTag := none }, cnt2)
      else if sel.tag = "img" || sel.tag = "br" || sel.tag = "hr" ||
          sel.tag = "input" then
        ({ html := "<" ++ sel.tag ++ attrs ++ "/>", text := "",
           rootTag := some sel.tag }, cnt2)
      else
        ({ html := "<" ++ sel.tag ++ attrs ++ ">" ++ content ++ "</" ++
             sel.tag ++ ">",
           text := contentText, rootTag := some sel.tag }, cnt2)
  termination_by e.msize + 1
  decreasing_by
    all_goals simp only [kidsMSize_reorder, msize_eq]
    all_goals omega

/-- `processLink` (lines 1796-1951): href from the direct URI action or named
    destination (link annotations behind OBJR leaves are outside the model),
    provenance/standard attributes, then the single `<a>` element. -/
def renderLink (env : DocEnv) (ctx : Ctx) (e : StructElem) (cnt : Nat) :
    RenderedContent × Nat :=
  let q := String.singleton quotC
  let href0 := match e.actionURI with
    | some u => u
    | none => ""
  let href := if href0 ≠ "" then href0
    else match e.destName with
      | some d => convertDestToFragment d
      | none => ""
  let attrs := getHTMLAttributes e.attrsL
  let mappedRole := match e.sTypeOf with
    | some s => resolveRole s env.roleMap e.nsURI
    | none => ""
  let attrs := attrs ++ (if mappedRole ≠ "" then
      " data-pdf-se-type=" ++ q ++ escapeHtml mappedRole ++ q else "")
  let attrs := attrs ++ (match e.sTypeOf with
    | some s => if s ≠ mappedRole then
        " data-pdf-se-type-original=" ++ q ++ escapeHtml s ++ q else ""
    | none => "")
  let attrs := attrs ++ (if href ≠ "" then
      " href=" ++ q ++ escapeHtml href ++ q else "")
  let pr := if jsTruthyStr e.idv then
      (attrs ++ " id=" ++ q ++ escapeHtml (e.idv.getD "") ++ q, cnt)
    else
      (attrs ++ " id=" ++ q ++ escapeHtml ("pdf-se-" ++ toString cnt) ++ q, cnt + 1)
  let attrs := pr.1
  let cnt1 := pr.2
  let attrs := attrs ++ (if jsTruthyStr e.langv then
      " lang=" ++ q ++ escapeHtml (e.langv.getD "") ++ q else "")
  let attrs := attrs ++ (if jsTruthyStr e.titlev then
      " title=" ++ q ++ escapeHtml (e.titlev.getD "") ++ q else "")
  let attrs := attrs ++ (match getPronunciationHint e.attrsL with
    | some p => if p ≠ "" then
        " data-pdf-pronunciation=" ++ q ++ escapeHtml p ++ q else ""
    | none => "")
  let classStr := String.intercalate " " e.classesL
  let attrs := attrs ++ (if e.classesL ≠ [] && classStr ≠ "" then
      " class=" ++ q ++ escapeHtml classStr ++ q else "")
  let style := getCSSProperties e.attrsL
  let attrs := attrs ++ (if style ≠ "" then
      " style=" ++ q ++ escapeHtml style ++ q else "")
  let tri := if jsTruthyStr e.actualTextv then
      ((escapeHtml (e.actualTextv.getD ""), e.actualTextv.getD ""), cnt1)
    else
      let r := renderKidsGo env ctx (reorderCaptionElements env e.kidsL)
        "" "" false cnt1
      ((r.1.html, r.1.text), r.2)
  let content0 := tri.1.1
  let contentText := tri.1.2
  let cnt2 := tri.2
  let content := if jsTruthyStr e.expansionv then
      "<abbr title=" ++ q ++ escapeHtml (e.expansionv.getD "") ++ q ++ ">" ++
        content0 ++ "</abbr>"
    else content0
  ({ html := "<a" ++ attrs ++ ">" ++ content ++ "</a>", text := contentText,
     rootTag := some "a" }, cnt2)
  termination_by kidsMSize e.kidsL + 1
  decreasing_by
    simp only [kidsMSize_reorder]
    omega

/-- The loop body of `processChildren` (lines 115-172) over an
    already-reordered child list: nested-list wrapping under an `L` parent,
    the inline-space heuristic elsewhere, and accumulation of markup and
    plain text.  Content-id leaves go through `fetchContentForMCID`
    (`processMCID`, single modelled page). -/
def renderKidsGo (env : DocEnv) (ctx : Ctx) (ks : List StructChild)
    (html text : String) (lastAT : Bool) (cnt : Nat) : RenderedContent × Nat :=
  match ks with
  | [] => ({ html := html, text := text, rootTag := none }, cnt)
  | c :: rest =>
    let info := getElementInfo env c
    let pr :=
      match c with
      | .contentId n =>
        (fetchContentForMCID env.ex env.imgHtml env.renderVec n ctx.bbox
           ctx.imageAlt ctx.preferVector ctx.mathmlTokenContext, cnt)
      | .elem ce => renderElem env ctx ce cnt
    let childR := pr.1
    let cnt1 := pr.2
    if ctx.parentRole = some "L" then
      if info.1 = some "L" then
        renderKidsGo env ctx rest (html ++ "<li>" ++ childR.html ++ "</li>")
          (text ++ childR.text) info.2 cnt1
      else
        renderKidsGo env ctx rest (html ++ childR.html) (text ++ childR.text)
          info.2 cnt1
    else
      let addSpace := shouldInsertInlineSpace ctx.parentRole info.1 text
        childR.text lastAT info.2 childR.rootTag
      let html1 := if addSpace then html ++ " " else html
      let text1 := if addSpace then text ++ " " else text
      renderKidsGo env ctx rest (html1 ++ childR.html) (text1 ++ childR.text)
        info.2 cnt1
  termination_by kidsMSize ks
  decreasing_by
    all_goals simp only [kidsMSize_cons, StructChild.csize]
    all_goals first
      | omega
      | (have hc := csize_pos c; omega)
end

/-- `processChildren` (lines 115-172) for an array-valued `K` slot: caption
    reordering, then the accumulation loop. -/
def renderKids (env : DocEnv) (ctx : Ctx) (ks : List StructChild) (cnt : Nat) :
    RenderedContent × Nat :=
  renderKidsGo env ctx (reorderCaptionElements env ks) "" "" false cnt

/-- The initial traversal context of `traverseStructure` (line 111). -/
def initialCtx : Ctx := { headingLevel := some 1 }

/-- `traverseStructure` (lines 103-113): renders the root's children and
    returns the body markup STRING alone (`rendered.html`) — there is no
    second component. -/
def traverseStructure (env : DocEnv) (rootKids : List StructChild) : String :=
  (renderKids env initialCtx rootKids 1).1.html

/-! ## Concrete documents used in the claim evaluations -/

/-- A minimal environment: empty role/class maps, one page whose content id `0`
    carries the text `x`, and external collaborators that produce nothing. -/
def envX : DocEnv :=
  { roleMap := [], classMap := [],
    ex := { mcidToText := [(0, "x")] },
    imgHtml := fun _ _ _ => "", renderVec := fun _ _ => "" }

/-- An element with only a structure type and children. -/
def mkElem (s : String) (kids : List StructChild) : StructElem :=
  .mk (some s) none none none none none none none none none [] [] kids

/-- A `TD` cell containing an explicit `H1` heading over content id 0. -/
def tdElem : StructElem := mkElem "TD" [.elem (mkElem "H1" [.contentId 0])]

/-- `Sect > Sect > H` over content id 0. -/
def sectSectH : StructElem :=
  mkElem "Sect" [.elem (mkElem "Sect" [.elem (mkElem "H" [.contentId 0])])]

/-- An explicit ninth-level heading with no children. -/
def h9Elem : StructElem := mkElem "H9" []

/-- A `Reference` whose `Link` descendant sits at depth two
    (`Reference > Span > Link`). -/
def refDeep : StructElem :=
  mkElem "Reference" [.elem (mkElem "Span" [.elem (mkElem "Link" [.contentId 0])])]

/-- The markup the engine produces for `refDeep`. -/
def refDeepHtml : String := (renderElem envX initialCtx refDeep 1).1.html

/-- A `Reference` with an immediate `Link` child. -/
def refImm : StructElem := mkElem "Reference" [.elem (mkElem "Link" [.contentId 0])]

/-- A `Layout`-owner dictionary carrying `TextAlign`. -/
def layoutTextAlignD (a : String) : AttrDict :=
  { owner := some "Layout", entries := [("TextAlign", .name a)] }

/-- A `CSS-2.00`-owner dictionary carrying `TextAlign`. -/
def cssTextAlignD (b : String) : AttrDict :=
  { owner := some "CSS-2.00", entries := [("TextAlign", .name b)] }

/-- A `Layout`-owner dictionary carrying the margin-implying `SpaceBefore`. -/
def layoutSpaceBeforeD : AttrDict :=
  { owner := some "Layout", entries := [("SpaceBefore", .num 4)] }

/-- A `CSS-2.00`-owner dictionary carrying `Placement Inline`. -/
def cssPlacementInlineD : AttrDict :=
  { owner := some "CSS-2.00", entries := [("Placement", .name "Inline")] }

/-- A `Table`-owner dictionary whose `Summary` contains a double quote. -/
def summaryQuoteD : AttrDict :=
  { owner := some "Table",
    entries := [("Summary", .str ("a" ++ String.singleton quotC ++ "b"))] }

/-- A `beginMarkedContentProps` for content id 0 carrying only `Lang`. -/
def bpLang (l : String) : PageStreamOp :=
  .beginProps (some 0) (some l) none none none

/-- An extraction result holding only an `Alt` property for content id 0. -/
def exAltOnly : ExtractorState := { mcidToProps := [(0, { alt := some "y" })] }

/-- An extraction result holding only text (with markup characters) for
    content id 0. -/
def exLtText : ExtractorState := { mcidToText := [(0, "<x")] }

/-- The empty extraction result (no text, images, operators or properties). -/
def exEmpty : ExtractorState := {}

/-- A character that can break out of element markup or a double-quoted
    attribute value. -/
def isMarkupBreaking (c : Char) : Bool :=
  c = '<' || c = '>' || c = quotC || c = aposC

attribute [simp] selectTag headingSel listChainSel groupingRole buildElemAttrs
  getBBox reorderCaptionElements isCaptionChild getElementInfo getHTMLAttributes
  getHTMLAttributesMap processListAttributes processTableAttributes
  processLayoutAttributesForHTML processHTMLAttributes processCSSAttributesForHTML
  processARIAAttributes mapSet mapGet getAttrVal lowerStr escapeHtml escChar
  getCSSProperties getCSSPropertyMap processCSSFromList processLayoutCSSProperties
  cssColorKey cssPxKey cssBlockMarginKey cssBorderStyle cssPadding cssTextAlign
  cssLineHeight cssBBoxWH cssPlacement cssWritingMode cssTextDeco cssRubyAlign
  cssRubyPos getAttribute getPronunciationHint jsTruthyVal jsTruthyValOpt jsOrV
  asNameVal resolveRole resolveRoleSteps isStandardType standardTypesList
  matchesHBackslashD isPdfStandardNamespace mapRoleToTag isInlineContext
  isHeadingRoleName isHeadingRoleOpt inlineTypesList fetchContentForMCID getText
  getImages getOperators getProperties amapGet amapSet splitEdgeWhitespace
  hasVectorOperators jsTruthyStr jsOrI parseIntJs StructElem.sTypeOf
  StructElem.sRaw StructElem.nsURI StructElem.idv StructElem.langv
  StructElem.titlev StructElem.altv StructElem.actualTextv StructElem.expansionv
  StructElem.actionURI StructElem.destName StructElem.attrsL StructElem.classesL
  StructElem.kidsL hasLinkChild hasLblChildren shouldInsertInlineSpace isWs quotC
  aposC bslashC rmLookup ownerIsHTML ownerIsCSS ownerIsARIA strStarts listStarts
  jsStringOfVal extractOperatorsFrom extractStep recordImage recordOp
  captureProps MCProps.nonempty traverseStructure renderKids initialCtx envX
  mkElem tdElem sectSectH h9Elem refDeep refDeepHtml refImm layoutTextAlignD
  cssTextAlignD layoutSpaceBeforeD cssPlacementInlineD summaryQuoteD bpLang
  exAltOnly exLtText countOcc countOccList parseColor firstDigitRun
  firstLetterRun parseListStart parseListType isRomanLetters normalizeLabel
  collapseWsGo getListNumbering firstLblOf getFirstListLabelText
  convertDestToFragment encodeURIComponent isUriUnreserved hexDigit
  getFirstVisibleChar getLastVisibleChar hasVisibleText hasLeadingWs
  hasTrailingWs isSentenceEnd isOpenerChar isCloserChar isWordChar isDigitC
  jsRound96over72 calculateImageDimensions exEmpty

/-! ## Claims -/


/-! ## Helper lemmas for the amended claims -/

/-- Every character block `escChar` emits is free of markup-breaking
    characters. -/
theorem escChar_safe (c : Char) :
    (escChar c).all (fun x => !isMarkupBreaking x) = true := by
  unfold escChar
  split
  next => decide
  next h1 =>
    split
    next => decide
    next h2 =>
      split
      next => decide
      next h3 =>
        split
        next => decide
        next h4 =>
          split
          next => decide
          next h5 =>
            simp only [List.all_cons, List.all_nil, Bool.and_true,
              isMarkupBreaking]
            simp [h2, h3]
            exact ⟨by simpa [quotC] using h4, by simpa [aposC] using h5⟩

/-- `escapeHtml` output never contains a raw markup-breaking character. -/
theorem escapeHtml_safe (s : String) :
    (escapeHtml s).data.all (fun x => !isMarkupBreaking x) = true := by
  simp only [escapeHtml]
  rw [List.all_flatMap]
  apply List.all_eq_true.mpr
  intro c _
  exact escChar_safe c

/-- `escapeHtml` distributes over string append. -/
theorem escapeHtml_append (a b : String) :
    escapeHtml (a ++ b) = escapeHtml a ++ escapeHtml b := by
  simp only [escapeHtml, String.data_append, List.flatMap_append]
  rfl

/-- `escChar` never drops a character. -/
theorem escChar_ne_nil (c : Char) : escChar c ≠ [] := by
  unfold escChar
  split
  next => decide
  next =>
    split
    next => decide
    next =>
      split
      next => decide
      next =>
        split
        next => decide
        next =>
          split
          next => decide
          next => simp

/-- `escapeHtml` maps only the empty string to the empty string. -/
theorem escapeHtml_eq_empty {s : String} (h : escapeHtml s = "") : s = "" := by
  cases s with
  | mk data =>
    cases data with
    | nil => rfl
    | cons c rest =>
      exfalso
      have hd : (escapeHtml (String.mk (c :: rest))).data = [] := by
        rw [h]
      simp only [escapeHtml, List.flatMap_cons] at hd
      exact escChar_ne_nil c (List.append_eq_nil.mp hd).1

/-- The leading-whitespace / core / trailing-whitespace split recombines to
    the original string. -/
theorem splitEdge_recombine (s : String) :
    (splitEdgeWhitespace s).1 ++ (splitEdgeWhitespace s).2.1 ++
      (splitEdgeWhitespace s).2.2 = s := by
  obtain ⟨t, ht⟩ := List.takeWhile_prefix (p := isWs) (l := s.data)
  obtain ⟨t2, ht2⟩ := List.takeWhile_prefix (p := isWs) (l := t.reverse)
  have hdrop : s.data.drop (s.data.takeWhile isWs).length = t := by
    have h0 : s.data.drop (s.data.takeWhile isWs).length =
        (s.data.takeWhile isWs ++ t).drop (s.data.takeWhile isWs).length := by
      rw [ht]
    rw [h0, List.drop_left]
  have hdrop2 : t.reverse.drop (t.reverse.takeWhile isWs).length = t2 := by
    have h0 : t.reverse.drop (t.reverse.takeWhile isWs).length =
        (t.reverse.takeWhile isWs ++ t2).drop (t.reverse.takeWhile isWs).length := by
      rw [ht2]
    rw [h0, List.drop_left]
  simp only [splitEdgeWhitespace, hdrop, hdrop2]
  have hmid : t2.reverse ++ (t.reverse.takeWhile isWs).reverse = t := by
    rw [← List.reverse_append, ht2, List.reverse_reverse]
  calc String.mk (s.data.takeWhile isWs) ++ String.mk t2.reverse ++
        String.mk (t.reverse.takeWhile isWs).reverse
      = String.mk ((s.data.takeWhile isWs ++ t2.reverse) ++
          (t.reverse.takeWhile isWs).reverse) := rfl
    _ = String.mk (s.data.takeWhile isWs ++
          (t2.reverse ++ (t.reverse.takeWhile isWs).reverse)) := by
        rw [List.append_assoc]
    _ = String.mk (s.data.takeWhile isWs ++ t) := by rw [hmid]
    _ = String.mk s.data := by rw [ht]
    _ = s := rfl

/-- A pure-text marked-content region (no images, operators or properties,
    untrimmed) renders exactly the `escapeHtml` image of its recorded text. -/
theorem fetchContent_text_escaped (ex : ExtractorState)
    (ih : ExtractedImage → Option (Int × Int) → Option String → String)
    (rv : List Nat → Option (List Int) → String)
    (mcid : Nat) (bbox : Option (List Int)) (alt : Option String) (pv : Bool)
    (himg : getImages ex mcid = [])
    (hops : getOperators ex mcid = [])
    (hp : getProperties ex mcid = none) :
    fetchContentForMCID ex ih rv mcid bbox alt pv false =
      { html := escapeHtml (getText ex mcid), text := getText ex mcid,
        rootTag := none } := by
  by_cases he : escapeHtml (getText ex mcid) = ""
  · have ht : getText ex mcid = "" := escapeHtml_eq_empty he
    simp only [fetchContentForMCID, himg, hops, hp, hasVectorOperators, ht]
    simp
  · have hsplit := splitEdge_recombine (getText ex mcid)
    simp only [fetchContentForMCID, himg, hops, hp]
    simp [he, hops, -getText, -escapeHtml, -splitEdgeWhitespace, -escChar,
      -getOperators]
    rw [← escapeHtml_append, ← escapeHtml_append, hsplit]

/-- For an element whose resolved role is `Reference`, `selectTag` keeps the
    mapped role and pushes a `Reference` parent context. -/
theorem selectTag_reference_proj (env : DocEnv) (ctx ctx1 : Ctx) (e : StructElem)
    (s : String) (hns : e.nsURI = none)
    (hrole : resolveRole s env.roleMap none = "Reference") :
    (selectTag env ctx ctx1 e s).mappedRole = "Reference" ∧
    (selectTag env ctx ctx1 e s).newCtx =
      { ctx1 with
        parentRole := some "Reference"
        mathmlTokenContext := false } := by
  simp only [selectTag, hns]
  rw [hrole]
  simp [headingSel, listChainSel, groupingRole, matchesHBackslashD]


set_option maxHeartbeats 4000000 in
set_option maxRecDepth 100000 in
/-- C1: `traverseStructure` returns the body markup string ALONE — its result
    is exactly the `html` component of the root children rendering, and for a
    concrete tagged document it is a bare markup string; there is no
    accompanying id-to-content-id index in the traversal result (which
    `convertToHTML` nonetheless destructures as `{html, structureMap}`). -/
theorem claimC1_traverse_returns_markup_only :
    (∀ (env : DocEnv) (ks : List StructChild),
        traverseStructure env ks = (renderKids env initialCtx ks 1).1.html) ∧
    traverseStructure envX [.elem (mkElem "P" [.contentId 0])] =
      "<p data-pdf-se-type=\"P\" id=\"pdf-se-1\">x</p>" := by
  constructor
  · intro env ks
    rfl
  · simp [renderElem.eq_def, renderKidsGo.eq_def, renderLink.eq_def,
      resolveWalk.eq_def]
    try decide

set_option maxHeartbeats 4000000 in
set_option maxRecDepth 100000 in
/-- C2: an explicit `H1` whose parent is `TD` renders as `<h1>`, not as
    `<p>` — the explicit-heading test `/^H\\d+$/` never matches `H1`, so the
    table-cell heading guard is skipped. -/
theorem claimC2_h1_in_td_renders_h1 :
    (renderElem envX initialCtx tdElem 1).1 =
      { html := "<td data-pdf-se-type=\"TD\" id=\"pdf-se-1\"><h1 data-pdf-se-type=\"H1\" id=\"pdf-se-2\">x</h1></td>",
        text := "x", rootTag := some "td" } := by
  simp [renderElem.eq_def, renderKidsGo.eq_def, renderLink.eq_def,
    resolveWalk.eq_def]
  try decide

set_option maxHeartbeats 4000000 in
set_option maxRecDepth 100000 in
/-- C3: `Sect > Sect > H` does yield `<h3>`, but an explicit `H9` renders as
    `<div>` — not as `<p role="heading" aria-level="9">` — because `H9` fails
    both the explicit-heading regex and the standard-type set. -/
theorem claimC3_h9_renders_div :
    (renderElem envX initialCtx sectSectH 1).1.html =
      "<section data-pdf-se-type=\"Sect\" id=\"pdf-se-1\"><section data-pdf-se-type=\"Sect\" id=\"pdf-se-2\"><h3 data-pdf-se-type=\"H\" id=\"pdf-se-3\">x</h3></section></section>" ∧
    (renderElem envX initialCtx h9Elem 1).1 =
      { html := "<div data-pdf-se-type=\"H9\" id=\"pdf-se-1\"></div>",
        text := "", rootTag := some "div" } := by
  constructor
  · simp [renderElem.eq_def, renderKidsGo.eq_def, renderLink.eq_def,
      resolveWalk.eq_def]
    try decide
  · simp [renderElem.eq_def, renderKidsGo.eq_def, renderLink.eq_def,
      resolveWalk.eq_def]
    try decide

/-- C4: `H7` is NOT resolved to itself: `isStandardType` rejects it (the
    `/^H\\d+$/` literal matches a literal backslash, not digits), so a role map
    containing an `H7` entry rewrites it. -/
theorem claimC4_h7_not_identity :
    resolveRole "H7" [("H7", "P")] (some "") = "P" ∧
    isStandardType "H7" = false := by
  constructor
  · simp [resolveWalk.eq_def]
    try decide
  · decide

set_option maxHeartbeats 4000000 in
set_option maxRecDepth 100000 in
/-- C5 counterexample: a `Reference` whose `Link` sits at depth two
    (`Reference > Span > Link`) renders TWO anchors, the inner one nested in
    the `Reference`'s own `<a>` — `hasLinkChild` looks only at immediate
    children. -/
theorem claimC5_deep_link_nests_anchors :
    refDeepHtml =
      "<a data-pdf-se-type=\"Reference\" id=\"pdf-se-1\"><span data-pdf-se-type=\"Span\" id=\"pdf-se-2\"><a data-pdf-se-type=\"Link\" id=\"pdf-se-3\">x</a></span></a>" ∧
    countOcc "<a " refDeepHtml = 2 := by
  constructor
  · simp [renderElem.eq_def, renderKidsGo.eq_def, renderLink.eq_def,
      resolveWalk.eq_def]
    try decide
  · simp [renderElem.eq_def, renderKidsGo.eq_def, renderLink.eq_def,
      resolveWalk.eq_def]
    try decide

/-- C6 counterexample: a `Layout` `SpaceBefore` sets `display: block`, and a
    LATER CSS-category `Placement Inline` overwrites it to `display: inline` —
    there is no no-downgrade guard on `display`. -/
theorem claimC6_display_downgraded :
    getCSSPropertyMap [layoutSpaceBeforeD, cssPlacementInlineD] =
      [("display", "inline"), ("margin-top", "4px")] := by
  decide

/-- C7 counterexample: redeclaring content id 0 with a different `Lang`
    REPLACES the stored properties — the capture is last-writer-wins, not
    first-declaration-wins. -/
theorem claimC7_last_declaration_wins :
    getProperties (extractOperatorsFrom
        [bpLang "en", .endMarked, bpLang "fr", .endMarked] {}) 0 =
      some { lang := some "fr", actualText := none, alt := none, e := none } ∧
    getProperties (extractOperatorsFrom
        [bpLang "en", .endMarked, bpLang "fr", .endMarked] {}) 0 ≠
      some { lang := some "en", actualText := none, alt := none, e := none } := by
  decide

/-- C8: for every role-map graph, the resolution walk performs at most
    `rm.length` replacement steps before stopping (and, being a Lean function,
    it is total — including on cyclic graphs). -/
theorem claimC8_resolve_steps_bounded (role : String) (rm : RoleMap)
    (ns : Option String) : resolveRoleSteps role rm ns ≤ rm.length := by
  by_cases h1 : role = ""
  · simp only [resolveRoleSteps]
    rw [if_pos h1]
    omega
  · by_cases h2 : (isPdfStandardNamespace ns && isStandardType role) = true
    · simp only [resolveRoleSteps]
      rw [if_neg h1, if_pos h2]
      omega
    · simp only [resolveRoleSteps]
      rw [if_neg h1, if_neg h2]
      exact resolveWalk_steps_le_length rm role

/-- C9 counterexample: a content id with NO recorded text, images or operators
    but with an `Alt` marked-content property renders a non-empty
    `<span title="…"></span>` — the lookups are empty yet the leaf markup is
    not. -/
theorem claimC9_alt_only_region_nonempty :
    getText exAltOnly 0 = "" ∧ getImages exAltOnly 0 = [] ∧
    getOperators exAltOnly 0 = [] ∧
    fetchContentForMCID exAltOnly (fun _ _ _ => "") (fun _ _ => "") 0 none none
        false false =
      { html := "<span title=\"y\"></span>", text := "", rootTag := none } ∧
    ("<span title=\"y\"></span>" : String) ≠ "" := by
  refine ⟨by decide, by decide, by decide, by decide, by decide⟩

/-- C10 counterexample: a document `Summary` string reaches the emitted `abbr`
    attribute UNESCAPED through `getHTMLAttributes` — the raw double quote
    survives into the attribute value, unlike its `escapeHtml` image. -/
theorem claimC10_summary_value_unescaped :
    getHTMLAttributes [summaryQuoteD] = " abbr=\"a\"b\"" ∧
    escapeHtml ("a" ++ String.singleton quotC ++ "b") = "a&quot;b" ∧
    getHTMLAttributes [summaryQuoteD] ≠
      " abbr=" ++ String.singleton quotC ++
        escapeHtml ("a" ++ String.singleton quotC ++ "b") ++
        String.singleton quotC := by
  refine ⟨by decide, by decide, by decide⟩

/-- C5 (amended): the `Reference` → anchor collapse applies exactly when a
    `Link` is an IMMEDIATE child — then the `Reference` element contributes no
    markup of its own and renders just its children (the `Link` children
    produce the anchors). -/
theorem claimC5_reference_immediate_link (env : DocEnv) (ctx : Ctx)
    (e : StructElem) (cnt : Nat) (s : String)
    (hs : e.sTypeOf = some s) (hns : e.nsURI = none)
    (hrole : resolveRole s env.roleMap none = "Reference")
    (hlink : hasLinkChild env e = true) :
    renderElem env ctx e cnt =
      renderKids env
        { ctx with
          bbox := (match getBBox e.attrsL with
            | some b => some b
            | none => ctx.bbox)
          mathmlTokenContext := false }
        e.kidsL cnt := by
  rw [renderElem.eq_def]
  simp only [hs]
  rw [(selectTag_reference_proj env ctx _ e s hns hrole).1,
      (selectTag_reference_proj env ctx _ e s hns hrole).2]
  rw [if_pos (by rw [hlink]; decide)]
  simp only [renderKids]

/-- C5 witness: the immediate-`Link` `Reference` fixture collapses to its
    children. -/
theorem claimC5_amended_witness :
    renderElem envX initialCtx refImm 1 =
      renderKids envX
        { initialCtx with
          bbox := (match getBBox refImm.attrsL with
            | some b => some b
            | none => initialCtx.bbox)
          mathmlTokenContext := false }
        refImm.kidsL 1 :=
  claimC5_reference_immediate_link envX initialCtx refImm 1 "Reference" rfl rfl
    (by simp [resolveWalk.eq_def]) (by simp [resolveWalk.eq_def])

/-- C6 (amended): in the CSS cascade the LATER category wins uniformly,
    `display` included: a later `TextAlign` overwrites an earlier one, and a
    later `Placement Inline` overwrites the `display: block` implied by an
    earlier margin property — there is no no-downgrade guard. -/
theorem claimC6_amended :
    (∀ a b : String, b ≠ "" →
      mapGet (getCSSPropertyMap [layoutTextAlignD a, cssTextAlignD b])
          "text-align" = some (lowerStr b)) ∧
    mapGet (getCSSPropertyMap [layoutSpaceBeforeD, cssPlacementInlineD])
        "display" = some "inline" := by
  constructor
  · intro a b hb
    by_cases ha : a = "" <;> simp [ha, hb]
  · decide

/-- C6 witness: `Center` then `Right` leaves `text-align: right`. -/
theorem claimC6_amended_witness :
    mapGet (getCSSPropertyMap [layoutTextAlignD "Center", cssTextAlignD "Right"])
        "text-align" = some (lowerStr "Right") :=
  claimC6_amended.1 "Center" "Right" (by decide)

/-- C7 (amended): a redeclaration of a content id that carries at least one
    non-empty marked-content property REPLACES the stored entry (last writer
    wins); a redeclaration carrying none leaves the stored entry in place. -/
theorem claimC7_amended :
    (∀ l1 l2 : String, l2 ≠ "" →
      getProperties (extractOperatorsFrom
          [bpLang l1, .endMarked, bpLang l2, .endMarked] {}) 0 =
        some { lang := some l2, actualText := none, alt := none, e := none }) ∧
    (∀ l1 : String, l1 ≠ "" →
      getProperties (extractOperatorsFrom
          [bpLang l1, .endMarked, .beginProps (some 0) none none none none,
            .endMarked] {}) 0 =
        some { lang := some l1, actualText := none, alt := none, e := none }) := by
  constructor
  · intro l1 l2 h2
    by_cases h1 : l1 = "" <;> simp [h1, h2]
  · intro l1 h1
    simp [h1]

/-- C7 witness: `en` then `fr` stores `fr`. -/
theorem claimC7_amended_witness :
    getProperties (extractOperatorsFrom
        [bpLang "en", .endMarked, bpLang "fr", .endMarked] {}) 0 =
      some { lang := some "fr", actualText := none, alt := none, e := none } :=
  claimC7_amended.1 "en" "fr" (by decide)

/-- C9 (amended): a content id with no recorded text, images or operators AND
    no truthy `ActualText` or `Alt` marked-content property renders the empty
    content. -/
theorem claimC9_amended (ex : ExtractorState)
    (ih : ExtractedImage → Option (Int × Int) → Option String → String)
    (rv : List Nat → Option (List Int) → String)
    (mcid : Nat) (bbox : Option (List Int)) (alt : Option String) (pv tt : Bool)
    (htext : getText ex mcid = "")
    (himg : getImages ex mcid = [])
    (hops : getOperators ex mcid = [])
    (hprops : ∀ p, getProperties ex mcid = some p →
      jsTruthyStr p.actualText = false ∧ jsTruthyStr p.alt = false) :
    fetchContentForMCID ex ih rv mcid bbox alt pv tt =
      { html := "", text := "", rootTag := none } := by
  cases hp : getProperties ex mcid with
  | none =>
    simp only [fetchContentForMCID, himg, hops, htext, hp, hasVectorOperators]
    simp
  | some p =>
    obtain ⟨h1, h2⟩ := hprops p hp
    simp only [fetchContentForMCID, himg, hops, htext, hp, hasVectorOperators,
      h1, h2]
    simp

/-- C9 witness: the empty extraction result renders empty content. -/
theorem claimC9_amended_witness :
    fetchContentForMCID exEmpty (fun _ _ _ => "") (fun _ _ => "") 0 none none
        false false =
      { html := "", text := "", rootTag := none } :=
  claimC9_amended exEmpty (fun _ _ _ => "") (fun _ _ => "") 0 none none false
    false rfl rfl rfl (fun p hp => by simp at hp)

/-- C10 (amended): the DOCUMENT strings that pass through `escapeHtml` can
    never break out of markup — its output contains no raw angle bracket or
    quote character — and the text of a plain marked-content region reaches
    the output exactly as its `escapeHtml` image.  (Attribute-cascade values,
    by the recorded counterexample, bypass this escaping.) -/
theorem claimC10_amended :
    (∀ s : String,
      (escapeHtml s).data.all (fun x => !isMarkupBreaking x) = true) ∧
    (∀ (ex : ExtractorState)
       (ih : ExtractedImage → Option (Int × Int) → Option String → String)
       (rv : List Nat → Option (List Int) → String)
       (mcid : Nat) (bbox : Option (List Int)) (alt : Option String)
       (pv : Bool),
      getImages ex mcid = [] → getOperators ex mcid = [] →
      getProperties ex mcid = none →
      fetchContentForMCID ex ih rv mcid bbox alt pv false =
        { html := escapeHtml (getText ex mcid), text := getText ex mcid,
          rootTag := none }) :=
  ⟨escapeHtml_safe, fun ex ih rv mcid bbox alt pv himg hops hp =>
    fetchContent_text_escaped ex ih rv mcid bbox alt pv himg hops hp⟩

/-- C10 witness: the text `<x` renders as `&lt;x`. -/
theorem claimC10_amended_witness :
    fetchContentForMCID exLtText (fun _ _ _ => "") (fun _ _ => "") 0 none none
        false false =
      { html := escapeHtml (getText exLtText 0), text := getText exLtText 0,
        rootTag := none } ∧
    escapeHtml (getText exLtText 0) = "&lt;x" :=
  ⟨claimC10_amended.2 exLtText (fun _ _ _ => "") (fun _ _ => "") 0 none none
      false rfl rfl rfl,
    by decide⟩

end TaggedPdf
